import Mathlib

/-!
# Swing-trading stock screener: a shallow embedding

This file embeds the indicator library (`src/indicators/*`), the scoring
engine (`src/scoring/scoring-engine.js`) and the scan orchestrator
(`src/scanner/main-scanner.js`) of the screener into Lean, and proves or
refutes the specification's claims about them.

Modelling conventions:
* JavaScript numbers are modelled as exact rationals (`ℚ`).  `NaN`,
  `Infinity` and non-numeric values are outside the model; division by zero
  yields `0` in `ℚ` (JS yields `Infinity`), which matters on no input
  considered in this development.
* JS truthiness checks on numbers (`!candle.high`) are `= 0` tests.
* JS `null` inside indicator output arrays is `Option.none`.  When a JS
  relational or arithmetic operator meets `null` it coerces it to `0`
  (`ToNumber(null) = 0`); `onum` performs that coercion.
* Thrown `Error`s are `Except.error` carrying the message string.
-/

namespace Screener

/-- One OHLCV observation, `{high, low, close, volume}` (the `open` field is
never read by the screener and is omitted). -/
structure Bar where
  high : ℚ
  low : ℚ
  close : ℚ
  volume : ℚ
deriving DecidableEq, Repr

/-- Error messages are plain strings, as thrown by the JS source. -/
abbrev Err := String

/-- JS coercion `ToNumber(null) = 0` applied to a nullable numeric value:
relational and arithmetic operators in the source coerce `null` this way. -/
def onum (o : Option ℚ) : ℚ := o.getD 0

/-- `parseFloat(x.toFixed(2))`: rounding to two decimal places.  Exact on
every value the scoring rubric produces (all are multiples of `1/2`). -/
def round2 (q : ℚ) : ℚ := (round (q * 100) : ℚ) / 100

/-- `Math.max(...xs)` over a nonempty list (the sources only apply it to
nonempty slices; the `[]` case is never reached). -/
def maxOf : List ℚ → ℚ
  | [] => 0
  | [x] => x
  | x :: y :: xs => max x (maxOf (y :: xs))

/-- `Math.sqrt`, modelled exactly on rationals whose normalized numerator and
denominator are perfect squares.  Every concrete evaluation in this file
queries it only at such points (the Bollinger variance of a constant window,
which is `0`), and no universal theorem depends on its value elsewhere. -/
def ratSqrt (q : ℚ) : ℚ := (Nat.sqrt q.num.toNat : ℚ) / (Nat.sqrt q.den : ℚ)

/-! ## EMA / SMA (`src/indicators/ema.js`) -/

/-- The running EMA recurrence
`ema[i] = price[i] * k + ema[i-1] * (1 - k)`, emitting one value per
remaining price. -/
def emaTail (k : ℚ) : ℚ → List ℚ → List ℚ
  | _, [] => []
  | prev, x :: xs =>
    let e := x * k + prev * (1 - k)
    e :: emaTail k e xs

/-- The list `emaValues` built by `calculateEMA`: seeded with the SMA of the
first `period` prices, then the EMA recurrence over the remaining prices
with multiplier `2 / (period + 1)`. -/
def emaValues (prices : List ℚ) (period : ℕ) : List ℚ :=
  let initialSMA := (prices.take period).sum / period
  initialSMA :: emaTail (2 / ((period : ℚ) + 1)) initialSMA (prices.drop period)

/-- `calculateEMA(prices, period)` (scalar mode, `returnArray = false`):
validation, then the last element of `emaValues`.  The "all prices must be
numbers" check of the source is vacuous over `ℚ`. -/
def calculateEMA (prices : List ℚ) (period : ℕ) : Except Err ℚ :=
  if period = 0 then .error "Invalid period: must be a positive integer"
  else if prices.length < period then
    .error s!"Insufficient data: need at least {period} prices, got {prices.length}"
  else .ok ((emaValues prices period).getLastD 0)

/-- `calculateEMA(prices, period, true)` (array mode): `period - 1` leading
`null`s, then all EMA values. -/
def calculateEMAArr (prices : List ℚ) (period : ℕ) : Except Err (List (Option ℚ)) :=
  if period = 0 then .error "Invalid period: must be a positive integer"
  else if prices.length < period then
    .error s!"Insufficient data: need at least {period} prices, got {prices.length}"
  else .ok (List.replicate (period - 1) none ++ (emaValues prices period).map some)

/-- `calculateSMA(prices, period)`: mean of the FIRST `period` prices
(the source slices `prices.slice(0, period)`). -/
def calculateSMA (prices : List ℚ) (period : ℕ) : Except Err ℚ :=
  if prices.length < period then
    .error s!"Insufficient data for SMA: need {period} prices, got {prices.length}"
  else .ok ((prices.take period).sum / period)

/-! ## RSI (`src/indicators/rsi.js`) -/

/-- Successive price changes `prices[i] - prices[i-1]`. -/
def changesOf (prices : List ℚ) : List ℚ :=
  List.zipWith (· - ·) prices.tail prices

/-- The gain part of a change: `change > 0 ? change : 0`. -/
def gainOf (c : ℚ) : ℚ := if c > 0 then c else 0

/-- The loss part of a change: `change < 0 ? Math.abs(change) : 0`. -/
def lossOf (c : ℚ) : ℚ := if c < 0 then -c else 0

/-- Wilder smoothing step `(avg * (period - 1) + x) / period`. -/
def wilder (period : ℕ) (avg x : ℚ) : ℚ :=
  (avg * ((period : ℚ) - 1) + x) / period

/-- The RSI smoothing loop over the changes after the seed window, carrying
`(avgGain, avgLoss)`. -/
def rsiLoop (period : ℕ) : ℚ → ℚ → List ℚ → ℚ × ℚ
  | ag, al, [] => (ag, al)
  | ag, al, c :: cs =>
    rsiLoop period (wilder period ag (gainOf c)) (wilder period al (lossOf c)) cs

/-- `RS = avgLoss == 0 ? 100 : avgGain / avgLoss; RSI = 100 - 100/(1+RS)`. -/
def rsiOf (avgGain avgLoss : ℚ) : ℚ :=
  let rs := if avgLoss = 0 then 100 else avgGain / avgLoss
  100 - 100 / (1 + rs)

/-- `calculateRSI(prices, period)` (scalar mode): the RSI computed from the
final smoothed averages (the last value the source pushes). -/
def calculateRSI (prices : List ℚ) (period : ℕ) : Except Err ℚ :=
  if period = 0 then .error "Invalid period: must be a positive integer"
  else if prices.length < period + 1 then
    .error s!"Insufficient data: need at least {period + 1} prices, got {prices.length}"
  else
    let changes := changesOf prices
    let avgGain := ((changes.take period).map gainOf).sum / period
    let avgLoss := ((changes.take period).map lossOf).sum / period
    let final := rsiLoop period avgGain avgLoss (changes.drop period)
    .ok (rsiOf final.1 final.2)

/-! ## MACD (`src/indicators/macd.js`) -/

/-- The last (scalar-mode) MACD values.  For every input accepted by
`calculateMACD` the last array entries are non-`null`; `onum` applies the JS
`null → 0` coercion in the impossible cases. -/
structure MACDOut where
  macdLine : ℚ
  signalLine : ℚ
  histogram : ℚ
deriving DecidableEq, Repr

/-- Pointwise difference of two aligned nullable arrays
(`null` wherever either operand is `null`). -/
def diffArr (xs ys : List (Option ℚ)) : List (Option ℚ) :=
  List.zipWith
    (fun f s => match f, s with
      | some a, some b => some (a - b)
      | _, _ => none)
    xs ys

/-- Reinsert the signal-line values at the non-`null` positions of the MACD
line, walking both lists with a single index as the source does. -/
def realign : List (Option ℚ) → List (Option ℚ) → List (Option ℚ)
  | [], _ => []
  | none :: ms, sig => none :: realign ms sig
  | some _ :: ms, [] => none :: realign ms []
  | some _ :: ms, s :: sig => s :: realign ms sig

/-- `calculateMACD(prices, fast, slow, signal)` (scalar mode). -/
def calculateMACD (prices : List ℚ) (fast slow signal : ℕ) :
    Except Err MACDOut :=
  if fast = 0 ∨ slow = 0 ∨ signal = 0 then
    .error "Invalid period: all periods must be positive integers"
  else if slow ≤ fast then .error "Fast period must be less than slow period"
  else if prices.length < slow + signal then
    .error s!"Insufficient data: need at least {slow + signal} prices, got {prices.length}"
  else
    match calculateEMAArr prices fast with
    | .error e => .error e
    | .ok fastEMA =>
      match calculateEMAArr prices slow with
      | .error e => .error e
      | .ok slowEMA =>
        let macdLine := diffArr fastEMA slowEMA
        let macdVals := macdLine.filterMap id
        match calculateEMAArr macdVals signal with
        | .error e => .error e
        | .ok signalVals =>
          let signalLine := realign macdLine signalVals
          let histogram := diffArr macdLine signalLine
          .ok ⟨onum (macdLine.getLastD none), onum (signalLine.getLastD none),
               onum (histogram.getLastD none)⟩

/-! ## ATR (`src/indicators/atr.js`) -/

/-- True range of a bar given the previous bar:
`max(high - low, |high - prevClose|, |low - prevClose|)`. -/
def calculateTrueRange (previous current : Bar) : ℚ :=
  max (current.high - current.low)
    (max (|current.high - previous.close|) (|current.low - previous.close|))

/-- True ranges of the bars after the first, each against its predecessor. -/
def trTail (prev : Bar) : List Bar → List ℚ
  | [] => []
  | b :: bs => calculateTrueRange prev b :: trTail b bs

/-- The full true-range series: `TR[0] = high - low` (no previous close),
then `calculateTrueRange` pairwise. -/
def trList : List Bar → List ℚ
  | [] => []
  | b :: bs => (b.high - b.low) :: trTail b bs

/-- Wilder's smoothing loop `v = (prev * (period - 1) + x) / period`,
emitting one value per input. -/
def wilderTail (period : ℕ) : ℚ → List ℚ → List ℚ
  | _, [] => []
  | prev, x :: xs =>
    let v := (prev * ((period : ℚ) - 1) + x) / period
    v :: wilderTail period v xs

/-- The `atrValues` list: seed = SMA of the first `period` true ranges, then
Wilder smoothing over the remaining true ranges. -/
def atrValuesOf (data : List Bar) (period : ℕ) : List ℚ :=
  let trs := trList data
  let seed := (trs.take period).sum / period
  seed :: wilderTail period seed (trs.drop period)

/-- The shared input validation of `calculateATR` (period, length, and the
truthiness test `!candle.high || !candle.low || !candle.close`). -/
def atrValidate (data : List Bar) (period : ℕ) (noun : String) : Option Err :=
  if period = 0 then some "Invalid period: must be a positive integer"
  else if data.length < period then
    some s!"Insufficient data: need at least {period} {noun}, got {data.length}"
  else if data.any (fun c => c.high = 0 ∨ c.low = 0 ∨ c.close = 0) then
    some "Each data point must have high, low, and close properties"
  else none

/-- `calculateATR(data, period)` (scalar mode). -/
def calculateATR (data : List Bar) (period : ℕ) : Except Err ℚ :=
  match atrValidate data period "data points" with
  | some e => .error e
  | none => .ok ((atrValuesOf data period).getLastD 0)

/-- `calculateATR(data, period, true)` (array mode): `period - 1` leading
`null`s then the ATR values. -/
def calculateATRArr (data : List Bar) (period : ℕ) :
    Except Err (List (Option ℚ)) :=
  match atrValidate data period "data points" with
  | some e => .error e
  | none =>
    .ok (List.replicate (period - 1) none ++ (atrValuesOf data period).map some)

/-! ## ADX (`src/indicators/adx.js`) -/

/-- The final (scalar-mode) ADX values; each output array slot can be `null`
(warm-up padding), hence `Option`. -/
structure ADXOut where
  adx : Option ℚ
  plusDI : Option ℚ
  minusDI : Option ℚ
deriving DecidableEq, Repr

/-- Directional movement per consecutive bar pair:
`+DM = highDiff` if it beats `lowDiff` and is positive, else `0`;
`-DM = lowDiff` if it beats `highDiff` and is positive, else `0`. -/
def dmPairs (prev : Bar) : List Bar → List (ℚ × ℚ)
  | [] => []
  | b :: bs =>
    let highDiff := b.high - prev.high
    let lowDiff := prev.low - b.low
    (if highDiff > lowDiff ∧ highDiff > 0 then highDiff else 0,
     if lowDiff > highDiff ∧ lowDiff > 0 then lowDiff else 0) :: dmPairs b bs

/-- Wilder sum-smoothing loop `s = s - s/period + x`, one value per input. -/
def sumTail (period : ℕ) : ℚ → List ℚ → List ℚ
  | _, [] => []
  | s, x :: xs =>
    let v := s - s / (period : ℚ) + x
    v :: sumTail period v xs

/-- Smoothed directional movement: seed = plain sum of the first `period`
values, then Wilder sum-smoothing. -/
def smoothedOf (dms : List ℚ) (period : ℕ) : List ℚ :=
  let s0 := (dms.take period).sum
  s0 :: sumTail period s0 (dms.drop period)

/-- One directional index: `0` when the ATR is `0`, else
`smoothed / (atr * period) * 100`. -/
def diOf (period : ℕ) (s atr : ℚ) : ℚ :=
  if atr = 0 then 0 else s / (atr * (period : ℚ)) * 100

/-- `DX = |+DI - -DI| / (+DI + -DI) * 100`, `0` when the denominator is. -/
def dxOf (p m : ℚ) : ℚ :=
  if p + m = 0 then 0 else |p - m| / (p + m) * 100

/-- The per-transition directional movements of a series (the source's loop
from index `1`). -/
def dmsOf : List Bar → List (ℚ × ℚ)
  | [] => []
  | b :: bs => dmPairs b bs

/-- `calculateADX(data, period)` (scalar mode): the last entries of the
null-padded output arrays (`?? null` out-of-range indexing is `get?`). -/
def calculateADX (data : List Bar) (period : ℕ) : Except Err ADXOut :=
  if period = 0 then .error "Invalid period: must be a positive integer"
  else if data.length < 2 * period then
    .error s!"Insufficient data: need at least {2 * period} data points, got {data.length}"
  else if data.any (fun c => c.high = 0 ∨ c.low = 0 ∨ c.close = 0) then
    .error "Each data point must have high, low, and close properties"
  else
    match calculateATRArr data period with
    | .error e => .error e
    | .ok atrArr =>
      let dms := dmsOf data
      let plusDM := dms.map Prod.fst
      let minusDM := dms.map Prod.snd
      let atrValues := atrArr.filterMap id
      let smoothedPlusDM := smoothedOf plusDM period
      let smoothedMinusDM := smoothedOf minusDM period
      let plusDI := List.zipWith (fun s a => diOf period s a)
        smoothedPlusDM (atrValues.drop 1)
      let minusDI := List.zipWith (fun s a => diOf period s a)
        smoothedMinusDM (atrValues.drop 1)
      let dx := List.zipWith dxOf plusDI minusDI
      let adxSeed := (dx.take period).sum / period
      let adxValues := adxSeed :: wilderTail period adxSeed (dx.drop period)
      let nullPadding := 2 * period - 1
      let outADX := (List.range data.length).map
        (fun i => if i < nullPadding then none else adxValues.get? (i - nullPadding))
      let outPlusDI := (List.range data.length).map
        (fun i => if i < nullPadding then none
                  else plusDI.get? (i - nullPadding + period - 1))
      let outMinusDI := (List.range data.length).map
        (fun i => if i < nullPadding then none
                  else minusDI.get? (i - nullPadding + period - 1))
      .ok ⟨outADX.getLastD none, outPlusDI.getLastD none, outMinusDI.getLastD none⟩

/-! ## Bollinger Bands (`src/indicators/bollinger-bands.js`) -/

/-- One row of the Bollinger computation (the last row is the scalar-mode
return value). -/
structure BBRow where
  upper : ℚ
  middle : ℚ
  lower : ℚ
  bandwidth : ℚ
  percentB : ℚ
deriving DecidableEq, Repr

/-- Population standard deviation of a window around its mean
(divide by the window length, then `Math.sqrt`). -/
def calculateStandardDeviation (values : List ℚ) (mean : ℚ) : ℚ :=
  ratSqrt (((values.map (fun v => (v - mean) ^ 2)).sum) / (values.length : ℚ))

/-- The per-index Bollinger rows: `null` before the warm-up
(`i < period - 1`), else the bands over the trailing window of `period`
prices ending at `i`. -/
def bbRows (prices : List ℚ) (period : ℕ) (stdDevMultiplier : ℚ) :
    List (Option BBRow) :=
  (List.range prices.length).map (fun i =>
    if i < period - 1 then none
    else
      let priceWindow := (prices.drop (i + 1 - period)).take period
      let sma := priceWindow.sum / period
      let stdDev := calculateStandardDeviation priceWindow sma
      let upper := sma + stdDev * stdDevMultiplier
      let lower := sma - stdDev * stdDevMultiplier
      let bw := (upper - lower) / sma
      let currentPrice := prices.getD i 0
      let pb := if upper - lower = 0 then 1 / 2
                else (currentPrice - lower) / (upper - lower)
      some ⟨upper, sma, lower, bw, pb⟩)

/-- `calculateBollingerBands(prices, period, stdDevMultiplier)` (scalar
mode): the last row (non-`null` for every accepted input; the `null`
fallback coerces to zeros as JS relational operators would). -/
def calculateBollingerBands (prices : List ℚ) (period : ℕ)
    (stdDevMultiplier : ℚ) : Except Err BBRow :=
  if period = 0 then .error "Invalid period: must be a positive integer"
  else if stdDevMultiplier ≤ 0 then
    .error "Invalid standard deviation multiplier: must be positive"
  else if prices.length < period then
    .error s!"Insufficient data: need at least {period} prices, got {prices.length}"
  else .ok (((bbRows prices period stdDevMultiplier).getLastD none).getD
    ⟨0, 0, 0, 0, 0⟩)

/-! ## Scoring engine (`src/scoring/scoring-engine.js`) -/

/-- The setup-pattern tag.  The JS source stores the pattern as one of the
strings above or `null`; per the data model the `null` sentinel is the
`NONE` member of the enum, modelled here as `SetupType.none`. -/
inductive SetupType where
  | pullbackInTrend
  | breakout
  | meanReversion
  | none
deriving DecidableEq, Repr

/-- Inputs of `calculateTrendAlignmentScore`. -/
structure TrendInput where
  currentPrice : ℚ
  ema20 : ℚ
  ema50 : ℚ
  ema200 : ℚ
  macd : MACDOut
deriving DecidableEq, Repr

/-- Layer 2, trend alignment: seven boolean checks, each worth one point,
weighted by `2.5`. -/
def calculateTrendAlignmentScore (t : TrendInput) : ℚ :=
  let points : ℚ :=
    (if t.currentPrice > t.ema20 then 1 else 0) +
    (if t.ema20 > t.ema50 then 1 else 0) +
    (if t.ema50 > t.ema200 then 1 else 0) +
    (if t.macd.macdLine > t.macd.signalLine then 1 else 0) +
    (if t.macd.macdLine > 0 then 1 else 0) +
    (if t.macd.histogram > 0 then 1 else 0) +
    (if |t.macd.histogram| > 2 then 1 else 0)
  points * (5 / 2)

/-- Pullback-in-trend detector.  `condition5` (volume declining) is computed
by the source but never referenced in the final `detected` conjunction. -/
def detectPullbackInTrend (currentPrice : ℚ) (recentPrices : List ℚ)
    (ema20 ema50 rsi14 : ℚ) (macd : MACDOut) (volumes : List ℚ) : Bool :=
  let condition1 := currentPrice > ema20 ∧ ema20 > ema50
  let recentHigh := maxOf recentPrices
  let pullbackPercent := (recentHigh - currentPrice) / recentHigh * 100
  let condition2 := pullbackPercent > 1 ∧ pullbackPercent < 10
  let condition3 := rsi14 > 30 ∧ rsi14 < 60
  let condition4 := macd.macdLine > macd.signalLine ∨ macd.macdLine > 0
  let recentVol := ((volumes.drop (volumes.length - 3)).sum) / 3
  let previousVol := (((volumes.drop (volumes.length - 6)).take 3).sum) / 3
  let _condition5 := recentVol < previousVol
  decide (condition1 ∧ condition2 ∧ condition3 ∧ condition4)

/-- Breakout detector: Bollinger squeeze, price at the upper band, and a
recent 3-bar volume average exceeding 1.2× the prior 7-bar average. -/
def detectBreakout (bb : BBRow) (currentPrice : ℚ) (volumes : List ℚ) : Bool :=
  let condition1 := bb.bandwidth < 4 / 100
  let condition2 := bb.percentB > 9 / 10
  let recentVol := ((volumes.drop (volumes.length - 3)).sum) / 3
  let previousVol := (((volumes.drop (volumes.length - 10)).take 7).sum) / 7
  let condition3 := recentVol > previousVol * (12 / 10)
  let _ := currentPrice
  decide (condition1 ∧ condition2 ∧ condition3)

/-- Mean-reversion detector: price at the lower band with RSI in `(20, 35)`. -/
def detectMeanReversion (bb : BBRow) (currentPrice : ℚ) (rsi14 : ℚ) : Bool :=
  let condition1 := bb.percentB < 2 / 10
  let condition2 := rsi14 < 35
  let condition3 := rsi14 > 20
  let _ := currentPrice
  decide (condition1 ∧ condition2 ∧ condition3)

/-- Inputs of `detectSetupPattern` (the source also receives the raw `data`
array but never reads it). -/
structure SetupInput where
  closes : List ℚ
  ema20 : ℚ
  ema50 : ℚ
  rsi14 : ℚ
  macd : MACDOut
  bb : BBRow
  volumes : List ℚ
deriving DecidableEq, Repr

/-- Layer 3, setup-pattern dispatch: pullback (15), then breakout (12), then
mean reversion (10), first match wins; otherwise `(NONE, 0)`. -/
def detectSetupPattern (inp : SetupInput) : SetupType × ℚ :=
  let currentPrice := inp.closes.getLastD 0
  let recentPrices := inp.closes.drop (inp.closes.length - 10)
  if detectPullbackInTrend currentPrice recentPrices inp.ema20 inp.ema50
      inp.rsi14 inp.macd inp.volumes then
    (SetupType.pullbackInTrend, 15)
  else if detectBreakout inp.bb currentPrice inp.volumes then
    (SetupType.breakout, 12)
  else if detectMeanReversion inp.bb currentPrice inp.rsi14 then
    (SetupType.meanReversion, 10)
  else (SetupType.none, 0)

/-- RSI score tiers (max 10). -/
def calculateRSIScore (rsi14 : ℚ) : ℚ :=
  if 45 ≤ rsi14 ∧ rsi14 ≤ 65 then 10
  else if 40 ≤ rsi14 ∧ rsi14 ≤ 70 then 7
  else if 35 ≤ rsi14 ∧ rsi14 ≤ 75 then 4
  else if 80 < rsi14 ∨ rsi14 < 25 then 0
  else 2

/-- MACD score: `+5` above signal, `+3` above zero, `+2` for a strong
histogram, capped at 10. -/
def calculateMACDScore (macd : MACDOut) : ℚ :=
  let score :=
    (if macd.macdLine > macd.signalLine then (5 : ℚ) else 0) +
    (if macd.macdLine > 0 then 3 else 0) +
    (if |macd.histogram| > 1 then 2 else 0)
  min score 10

/-- Volume score tiers from the recent-5 to recent-20 volume ratio. -/
def calculateVolumeScore (volumes : List ℚ) : ℚ :=
  let recentVol := ((volumes.drop (volumes.length - 5)).sum) / 5
  let avgVol := ((volumes.drop (volumes.length - 20)).sum) / 20
  let volumeRatio := recentVol / avgVol
  if volumeRatio > 15 / 10 then 10
  else if volumeRatio > 12 / 10 then 7
  else if volumeRatio > 1 then 5
  else if volumeRatio > 8 / 10 then 3
  else 0

/-- Bollinger position score tiers from `%B` (max 7.5). -/
def calculateBollingerScore (bb : BBRow) (currentPrice : ℚ) : ℚ :=
  let percentB := bb.percentB
  let _ := currentPrice
  if 5 / 10 ≤ percentB ∧ percentB ≤ 8 / 10 then 15 / 2
  else if 4 / 10 ≤ percentB ∧ percentB ≤ 9 / 10 then 5
  else if 3 / 10 ≤ percentB ∧ percentB ≤ 95 / 100 then 3
  else if percentB > 1 ∨ percentB < 1 / 10 then 0
  else 2

/-- Market-regime score: ADX tiers (max 10) plus `+5` when `+DI > -DI`,
capped at 15.  JS compares the possibly-`null` fields after `null → 0`
coercion (`onum`). -/
def calculateMarketRegimeScore (adx : ADXOut) (bb : BBRow) : ℚ :=
  let a := onum adx.adx
  let base : ℚ :=
    if 25 ≤ a ∧ a ≤ 50 then 10
    else if 20 ≤ a ∧ a ≤ 60 then 7
    else if 15 ≤ a ∧ a ≤ 70 then 4
    else if a < 15 then 0
    else 2
  let _ := bb
  let score := base + (if onum adx.plusDI > onum adx.minusDI then 5 else 0)
  min score 15

/-- The scoring breakdown returned by `scoreStock`.  The human-readable
`reasoning` text and the rounded `indicators` snapshot are omitted: no claim
concerns them and they do not feed back into any numeric field. -/
structure ScoreBreakdown where
  totalScore : ℚ
  classification : String
  trendScore : ℚ
  setupScore : ℚ
  rsiScore : ℚ
  macdScore : ℚ
  volumeScore : ℚ
  bollingerScore : ℚ
  marketRegimeScore : ℚ
  setupType : SetupType
deriving DecidableEq, Repr

/-- `scoreStock(data)`: validation, the seven indicator calls (in source
order, so the first failing call determines the error), the seven component
scores, their sum, and the classification tiers. -/
def scoreStock (data : List Bar) : Except Err ScoreBreakdown :=
  if data.length < 50 then
    .error s!"Insufficient data: need at least 50 data points, got {data.length}"
  else if data.any
      (fun c => c.high = 0 ∨ c.low = 0 ∨ c.close = 0 ∨ c.volume = 0) then
    .error "Each data point must have high, low, close, and volume properties"
  else
    let closes := data.map (·.close)
    let volumes := data.map (·.volume)
    match calculateEMA closes 20 with
    | .error e => .error e
    | .ok ema20 =>
      match calculateEMA closes 50 with
      | .error e => .error e
      | .ok ema50 =>
        match calculateEMA closes 200 with
        | .error e => .error e
        | .ok ema200 =>
          match calculateRSI closes 14 with
          | .error e => .error e
          | .ok rsi14 =>
            match calculateMACD closes 12 26 9 with
            | .error e => .error e
            | .ok macd =>
              match calculateADX data 14 with
              | .error e => .error e
              | .ok adx =>
                match calculateBollingerBands closes 20 2 with
                | .error e => .error e
                | .ok bb =>
                  let currentPrice := closes.getLastD 0
                  let trendScore := calculateTrendAlignmentScore
                    ⟨currentPrice, ema20, ema50, ema200, macd⟩
                  let setupResult := detectSetupPattern
                    ⟨closes, ema20, ema50, rsi14, macd, bb, volumes⟩
                  let rsiScore := calculateRSIScore rsi14
                  let macdScore := calculateMACDScore macd
                  let volumeScore := calculateVolumeScore volumes
                  let bollingerScore := calculateBollingerScore bb currentPrice
                  let marketRegimeScore := calculateMarketRegimeScore adx bb
                  let totalScore := trendScore + setupResult.2 + rsiScore +
                    macdScore + volumeScore + bollingerScore + marketRegimeScore
                  let classification :=
                    if totalScore ≥ 80 then "STRONG"
                    else if totalScore ≥ 65 then "GOOD"
                    else if totalScore ≥ 50 then "MARGINAL"
                    else "DO_NOT_TRADE"
                  .ok ⟨round2 totalScore, classification, round2 trendScore,
                       round2 setupResult.2, round2 rsiScore, round2 macdScore,
                       round2 volumeScore, round2 bollingerScore,
                       round2 marketRegimeScore, setupResult.1⟩

/-! ## Scan orchestrator (`src/scanner/main-scanner.js`) -/

/-- Scan options with the orchestrator's defaults.  `days` and `interval`
are forwarded to the data provider and only validated here. -/
structure ScanOptions where
  days : ℕ := 50
  interval : String := "1d"
  minScore : ℚ := 50
  maxResults : ℕ := 20
deriving DecidableEq, Repr

/-- The valid candle intervals of `validators.validateInterval`. -/
def validIntervals : List String :=
  ["1m", "5m", "15m", "30m", "1h", "4h", "1d", "1wk", "1mo"]

/-- `validators.validateScanOptions`: interval in the enumerated set, `days`
a positive integer, `minScore` in `[0, 100]`, `maxResults` a positive
integer.  (`ℕ` fields cannot be negative or fractional, so those branches of
the JS checks are vacuous here.) -/
def validateScanOptions (o : ScanOptions) : Except Err Unit :=
  if ¬ validIntervals.contains o.interval then
    .error s!"Invalid interval: {o.interval}"
  else if o.days = 0 then
    .error "Scan option \"days\" must be a positive integer"
  else if ¬ (0 ≤ o.minScore ∧ o.minScore ≤ 100) then
    .error "Scan option \"minScore\" must be a number between 0 and 100"
  else if o.maxResults = 0 then
    .error "Scan option \"maxResults\" must be a positive integer"
  else .ok ()

/-- One successful per-symbol scan record (the fields the ranking stage
reads; `name`, `scoreBreakdown`, `reasoning` and the optional indicator
snapshot are carried verbatim from `scoreStock` and are omitted here). -/
structure StockResult where
  symbol : String
  score : ℚ
  classification : String
  setupType : SetupType
  currentPrice : ℚ
deriving DecidableEq, Repr

/-- The outcome of `processStockWithScore`: either a result record
(`{success: true, data}`) or `{success: false, symbol, error}`. -/
inductive ProcessOutcome where
  | success (r : StockResult)
  | failure (symbol : String) (error : Err)
deriving DecidableEq, Repr

/-- Modelled from the spec: the market data provider collaborator
(`fetchStockData` under `withTimeout`, from the `src/data` module that is
not part of the core sources).  A fetch either yields an ordered OHLCV
series or fails with a message; a timeout surfaces as an error like
`"Operation timed out after 30000ms"`. -/
def Fetch := String → Except Err (List Bar)

/-- `processStockWithScore(symbol, ...)`: fetch, validate non-empty, score,
take the last candle's close; any error is caught and becomes a failure
record carrying the symbol and the message. -/
def processStockWithScore (fetch : Fetch) (symbol : String) : ProcessOutcome :=
  match fetch symbol with
  | .error e => .failure symbol e
  | .ok data =>
    if data.isEmpty then .failure symbol "No data returned from data fetcher"
    else
      match scoreStock data with
      | .error e => .failure symbol e
      | .ok score =>
        let lastCandle := data.getLastD ⟨0, 0, 0, 0⟩
        if lastCandle.close = 0 then .failure symbol "Invalid price data"
        else .success ⟨symbol, score.totalScore, score.classification,
          score.setupType, lastCandle.close⟩

/-- Descending-by-score comparison used by
`results.sort((a, b) => b.score - a.score)`. -/
def scoreDesc (a b : StockResult) : Bool := b.score ≤ a.score

/-- The successful results sorted by score, highest first. -/
def sortedByScore (results : List StockResult) : List StockResult :=
  results.mergeSort scoreDesc

/-- The sorted results that meet the inclusive `score >= minScore` bound. -/
def qualifiedOf (results : List StockResult) (minScore : ℚ) :
    List StockResult :=
  (sortedByScore results).filter (fun stock => minScore ≤ stock.score)

/-- Step 4 of `scanStocks`: sort descending, filter by `minScore`, truncate
to the first `maxResults` entries (`slice(0, maxResults)`). -/
def rankAndFilter (results : List StockResult) (minScore : ℚ)
    (maxResults : ℕ) : List StockResult :=
  (qualifiedOf results minScore).take maxResults

/-- The scan report (`scanResult`).  Wall-clock fields (`scanTime`,
`executionTime`) and the best-effort `marketContext` are outside the model;
the `errors` field is the empty list where JS uses `undefined`. -/
structure ScanReport where
  totalScanned : ℕ
  successful : ℕ
  failed : ℕ
  qualifiedStocks : ℕ
  stockList : List StockResult
  errors : List (String × Err)
deriving DecidableEq, Repr

/-- The success record of an outcome, if any. -/
def successOf : ProcessOutcome → Option StockResult
  | .success r => some r
  | .failure _ _ => none

/-- The error record of an outcome, if any. -/
def failureOf : ProcessOutcome → Option (String × Err)
  | .success _ => none
  | .failure s e => some (s, e)

/-- `scanStocks(stocks, options)` over an explicit symbol list: input
validation (aborting the scan), per-symbol processing (batching preserves
symbol order and every failure is caught per symbol), ranking/filtering,
and report assembly. -/
def scanStocks (stocks : List String) (options : ScanOptions) (fetch : Fetch) :
    Except Err ScanReport :=
  if stocks.isEmpty then .error "Stock list cannot be empty"
  else
    match validateScanOptions options with
    | .error e => .error e
    | .ok _ =>
      let allResults := stocks.map (processStockWithScore fetch)
      let results := allResults.filterMap successOf
      let errors := allResults.filterMap failureOf
      let qualifiedStocks := qualifiedOf results options.minScore
      let topStocks := qualifiedStocks.take options.maxResults
      .ok ⟨stocks.length, results.length, errors.length,
           qualifiedStocks.length, topStocks, errors⟩

/-! ## Concrete inputs used by the theorems -/

/-- A flat bar: all four fields present, numeric and nonzero. -/
def flatBar : Bar := ⟨1, 1, 1, 1⟩

/-- A flat OHLCV series of `n` bars. -/
def flatData (n : ℕ) : List Bar := List.replicate n flatBar

/-- A strictly increasing 16-price series (the repo's `allGains` fixture). -/
def incrPrices : List ℚ :=
  [100, 101, 102, 103, 104, 105, 106, 107, 108, 109, 110, 111, 112, 113, 114, 115]

/-- A strictly decreasing 16-price series (the repo's `allLosses` fixture). -/
def decrPrices : List ℚ :=
  [115, 114, 113, 112, 111, 110, 109, 108, 107, 106, 105, 104, 103, 102, 101, 100]

/-- Four gap-up bars with `close = high` on every bar and a tiny first-bar
range: a well-formed OHLC series (`low ≤ close ≤ high`) on which the ADX
directional index overshoots 100. -/
def gapUpBars : List Bar :=
  [⟨1, 1/2, 1, 1⟩, ⟨2, 3/2, 2, 1⟩, ⟨3, 5/2, 3, 1⟩, ⟨4, 7/2, 4, 1⟩]

/-- The repo's own 30-bar `perfectBullishSetup` fixture
(`tests/fixtures/scoring-test-data.js`): an uptrend from 2450 with a
mid-sequence pullback and resumption, expected by the test suite to score
85+ with `setupType = PULLBACK_IN_TREND`. -/
def perfectBullishSetup : List Bar :=
  [⟨2455, 2440, 2450, 1000000⟩, ⟨2468, 2445, 2465, 1100000⟩,
   ⟨2475, 2460, 2470, 1050000⟩, ⟨2482, 2468, 2478, 1200000⟩,
   ⟨2485, 2470, 2475, 950000⟩, ⟨2490, 2472, 2485, 1300000⟩,
   ⟨2495, 2480, 2490, 1150000⟩, ⟨2500, 2485, 2495, 1400000⟩,
   ⟨2505, 2490, 2500, 1250000⟩, ⟨2510, 2495, 2505, 1500000⟩,
   ⟨2515, 2500, 2510, 1350000⟩, ⟨2520, 2505, 2515, 1600000⟩,
   ⟨2525, 2510, 2520, 1450000⟩, ⟨2530, 2515, 2525, 1700000⟩,
   ⟨2535, 2520, 2530, 1550000⟩, ⟨2540, 2525, 2535, 1800000⟩,
   ⟨2545, 2530, 2540, 1650000⟩, ⟨2550, 2535, 2545, 1900000⟩,
   ⟨2555, 2540, 2550, 1750000⟩, ⟨2560, 2545, 2555, 2000000⟩,
   ⟨2550, 2540, 2545, 1200000⟩, ⟨2548, 2535, 2542, 1100000⟩,
   ⟨2546, 2537, 2540, 1000000⟩, ⟨2555, 2540, 2552, 1500000⟩,
   ⟨2565, 2550, 2560, 1800000⟩, ⟨2575, 2560, 2570, 2100000⟩,
   ⟨2585, 2570, 2580, 2200000⟩, ⟨2595, 2580, 2590, 2300000⟩,
   ⟨2605, 2590, 2600, 2400000⟩, ⟨2615, 2600, 2610, 2500000⟩]

/-- A 50-bar series whose 30th bar carries a present, numeric volume of `0`. -/
def zeroVolumeData : List Bar :=
  List.replicate 29 flatBar ++ ⟨1, 1, 1, 0⟩ :: List.replicate 20 flatBar

/-- A setup-detector input on which none of the three patterns matches. -/
def noSetupInput : SetupInput :=
  ⟨[1], 1, 1, 50, ⟨0, 0, 0⟩, ⟨1, 1, 1, 1, 1/2⟩, [1]⟩

/-- A fetch behaviour where one symbol's request times out and every other
symbol yields 200 flat bars. -/
def timeoutFetch : Fetch := fun s =>
  if s = "BBB.NS" then .error "Operation timed out after 30000ms"
  else .ok (flatData 200)

/-- A fetch behaviour where every symbol yields 200 flat bars. -/
def okFetch : Fetch := fun _ => .ok (flatData 200)

/-- Scan options with a qualification bar below the flat-data score. -/
def lowBarOptions : ScanOptions := { minScore := 5 }

/-! ## List helper lemmas -/

theorem getLastD_replicate {α : Type} (d a : α) (n : ℕ) (hn : n ≠ 0) :
    (List.replicate n a).getLastD d = a := by
  induction n with
  | zero => exact absurd rfl hn
  | succ m ih =>
    cases m with
    | zero => rfl
    | succ k => simpa [List.replicate] using ih (Nat.succ_ne_zero k)

theorem getLastD_append_replicate {α : Type} (d a : α) (xs : List α) (n : ℕ)
    (hn : n ≠ 0) : (xs ++ List.replicate n a).getLastD d = a := by
  rw [List.getLastD_eq_getLast?, List.getLast?_append]
  simp [List.getLast?_replicate, hn]

theorem zipWith_replicate_replicate {α β γ : Type} (f : α → β → γ) (m n : ℕ)
    (a : α) (b : β) :
    List.zipWith f (List.replicate m a) (List.replicate n b) =
      List.replicate (min m n) (f a b) := by
  induction m generalizing n with
  | zero => simp
  | succ k ih =>
    cases n with
    | zero => simp
    | succ l => simp [List.replicate, ih, Nat.succ_min_succ]

theorem filterMap_id_replicate_none {α : Type} (n : ℕ) :
    (List.replicate n (none : Option α)).filterMap id = [] := by
  induction n with
  | zero => rfl
  | succ k ih => simpa [List.replicate] using ih

theorem filterMap_id_replicate_some {α : Type} (n : ℕ) (a : α) :
    (List.replicate n (some a)).filterMap id = List.replicate n a := by
  induction n with
  | zero => rfl
  | succ k ih => simpa [List.replicate] using ih

theorem get?_replicate {α : Type} (a : α) (n i : ℕ) :
    (List.replicate n a).get? i = if i < n then some a else none := by
  induction n generalizing i with
  | zero => simp
  | succ k ih =>
    cases i with
    | zero => simp [List.replicate]
    | succ j =>
      simp only [List.replicate, List.get?]
      rw [ih j]
      simp [Nat.succ_lt_succ_iff]

theorem get?_append_replicate {α : Type} (a : α) (xs : List α) (n i : ℕ)
    (h : i < xs.length) : (xs ++ List.replicate n a).get? i = xs.get? i := by
  rw [List.get?_append h]

theorem map_range_getLastD {α : Type} (f : ℕ → α) (n : ℕ) (d : α)
    (hn : n ≠ 0) : ((List.range n).map f).getLastD d = f (n - 1) := by
  obtain ⟨m, rfl⟩ := Nat.exists_eq_succ_of_ne_zero hn
  rw [List.range_succ]
  simp

/-! ## Constant-series behaviour of the indicators -/

theorem emaTail_const (k c : ℚ) (n : ℕ) :
    emaTail k c (List.replicate n c) = List.replicate n c := by
  induction n with
  | zero => rfl
  | succ m ih =>
    have he : c * k + c * (1 - k) = c := by ring
    simp only [List.replicate, emaTail, he]
    rw [ih]

theorem emaValues_replicate (c : ℚ) (p n : ℕ) (hp : p ≠ 0) (hpn : p ≤ n) :
    emaValues (List.replicate n c) p = List.replicate (n - p + 1) c := by
  have hmin : min p n = p := Nat.min_eq_left hpn
  have hseed : ((List.replicate n c).take p).sum / (p : ℚ) = c := by
    rw [List.take_replicate, hmin, List.sum_replicate, nsmul_eq_mul]
    have : (p : ℚ) ≠ 0 := Nat.cast_ne_zero.mpr hp
    field_simp
  simp only [emaValues, hseed, List.drop_replicate, emaTail_const]
  rw [← List.replicate_succ]

theorem calculateEMA_replicate (c : ℚ) (p n : ℕ) (hp : p ≠ 0) (hpn : p ≤ n) :
    calculateEMA (List.replicate n c) p = .ok c := by
  simp only [calculateEMA, List.length_replicate, hp, if_false,
    Nat.not_lt.mpr hpn, if_neg (by omega : ¬ n < p)]
  rw [emaValues_replicate c p n hp hpn, getLastD_replicate _ _ _ (by omega)]

theorem calculateEMAArr_replicate (c : ℚ) (p n : ℕ) (hp : p ≠ 0) (hpn : p ≤ n) :
    calculateEMAArr (List.replicate n c) p =
      .ok (List.replicate (p - 1) none ++
        List.replicate (n - p + 1) (some c)) := by
  simp only [calculateEMAArr, List.length_replicate, hp, if_false,
    if_neg (by omega : ¬ n < p)]
  rw [emaValues_replicate c p n hp hpn, List.map_replicate]

theorem changesOf_replicate (c : ℚ) (n : ℕ) :
    changesOf (List.replicate n c) = List.replicate (n - 1) 0 := by
  simp only [changesOf, List.tail_replicate]
  rw [zipWith_replicate_replicate]
  congr 1
  · omega
  · ring

theorem rsiLoop_zero (p m : ℕ) :
    rsiLoop p 0 0 (List.replicate m 0) = (0, 0) := by
  induction m with
  | zero => rfl
  | succ k ih =>
    have hg : gainOf 0 = 0 := by simp [gainOf]
    have hl : lossOf 0 = 0 := by simp [lossOf]
    have hw : wilder p 0 0 = 0 := by simp [wilder]
    simp only [List.replicate, rsiLoop, hg, hl, hw]
    exact ih

theorem calculateRSI_replicate (c : ℚ) (p n : ℕ) (hp : p ≠ 0)
    (hpn : p + 1 ≤ n) :
    calculateRSI (List.replicate n c) p = .ok (100 - 100 / 101) := by
  have hc : changesOf (List.replicate n c) = List.replicate (n - 1) 0 :=
    changesOf_replicate c n
  have htake : ((List.replicate (n - 1) (0 : ℚ)).take p) =
      List.replicate p 0 := by
    rw [List.take_replicate]
    congr 1
    omega
  have hg : (List.replicate p (0 : ℚ)).map gainOf = List.replicate p 0 := by
    rw [List.map_replicate]
    simp [gainOf]
  have hl : (List.replicate p (0 : ℚ)).map lossOf = List.replicate p 0 := by
    rw [List.map_replicate]
    simp [lossOf]
  simp only [calculateRSI, List.length_replicate, hp, if_false,
    if_neg (by omega : ¬ n < p + 1), hc, htake, hg, hl, List.drop_replicate,
    List.sum_replicate, nsmul_eq_mul, mul_zero, zero_div, rsiLoop_zero]
  norm_num [rsiOf]

theorem replicate_split {α : Type} (m n : ℕ) (x : α) :
    List.replicate (m + n) x = List.replicate m x ++ List.replicate n x := by
  induction m with
  | zero => simp
  | succ k ih => simp only [Nat.succ_add, List.replicate, ih, List.cons_append]

theorem diffArr_cons (x y : Option ℚ) (xs ys : List (Option ℚ)) :
    diffArr (x :: xs) (y :: ys) =
      (match x, y with
        | some a, some b => some (a - b)
        | _, _ => none) :: diffArr xs ys := rfl

theorem diffArr_none_pad (a : ℕ) (xs ys : List (Option ℚ)) :
    diffArr (List.replicate a none ++ xs) (List.replicate a none ++ ys) =
      List.replicate a none ++ diffArr xs ys := by
  induction a with
  | zero => rfl
  | succ k ih =>
    simp only [List.replicate, List.cons_append, diffArr_cons]
    rw [ih]

theorem diffArr_some_none_pad (d e : ℕ) (u : ℚ) (ys : List (Option ℚ)) :
    diffArr (List.replicate (d + e) (some u)) (List.replicate d none ++ ys) =
      List.replicate d none ++ diffArr (List.replicate e (some u)) ys := by
  induction d with
  | zero => simp
  | succ k ih =>
    rw [Nat.succ_add]
    simp only [List.replicate, List.cons_append, diffArr_cons]
    rw [ih]

theorem diffArr_some_some (e : ℕ) (u v : ℚ) :
    diffArr (List.replicate e (some u)) (List.replicate e (some v)) =
      List.replicate e (some (u - v)) := by
  simpa [diffArr] using
    zipWith_replicate_replicate
      (fun f s => match f, s with
        | some a, some b => some (a - b)
        | _, _ => none) e e (some u) (some v)

theorem diffArr_shape (a d e : ℕ) (u v : ℚ) :
    diffArr
      (List.replicate a none ++ List.replicate (d + e) (some u))
      (List.replicate (a + d) none ++ List.replicate e (some v)) =
      List.replicate (a + d) none ++ List.replicate e (some (u - v)) := by
  rw [replicate_split a d, List.append_assoc, diffArr_none_pad,
    diffArr_some_none_pad, diffArr_some_some, List.append_assoc]

theorem realign_none_pad (a : ℕ) (rest sig : List (Option ℚ)) :
    realign (List.replicate a none ++ rest) sig =
      List.replicate a none ++ realign rest sig := by
  induction a with
  | zero => rfl
  | succ k ih => simp [List.replicate, realign, ih]

theorem realign_some_all (x : ℚ) (sig : List (Option ℚ)) (e : ℕ)
    (h : sig.length = e) :
    realign (List.replicate e (some x)) sig = sig := by
  induction sig generalizing e with
  | nil =>
    subst h
    rfl
  | cons s ss ih =>
    subst h
    simp only [List.length_cons, List.replicate, realign]
    rw [ih ss.length rfl]

theorem calculateMACD_replicate (c : ℚ) (n : ℕ) (hn : 35 ≤ n) :
    calculateMACD (List.replicate n c) 12 26 9 = .ok ⟨0, 0, 0⟩ := by
  have hfast := calculateEMAArr_replicate c 12 n (by omega) (by omega)
  have hslow := calculateEMAArr_replicate c 26 n (by omega) (by omega)
  have hml : diffArr
      (List.replicate 11 none ++ List.replicate (n - 12 + 1) (some c))
      (List.replicate 25 none ++ List.replicate (n - 26 + 1) (some c)) =
      List.replicate 25 none ++ List.replicate (n - 25) (some (0 : ℚ)) := by
    have h1 : n - 12 + 1 = 14 + (n - 25) := by omega
    have h2 : (25 : ℕ) = 11 + 14 := by omega
    have h3 : n - 26 + 1 = n - 25 := by omega
    rw [h1, h3, h2, diffArr_shape 11 14 (n - 25) c c, sub_self]
  have hsig := calculateEMAArr_replicate (0 : ℚ) 9 (n - 25) (by omega) (by omega)
  simp only [calculateMACD, List.length_replicate]
  rw [if_neg (by omega), if_neg (by omega), if_neg (by omega), hfast, hslow]
  simp only [hml, List.filterMap_append, filterMap_id_replicate_none,
    filterMap_id_replicate_some, List.nil_append, hsig]
  rw [realign_none_pad, realign_some_all _ _ _ (by simp; omega)]
  have hh : diffArr
      (List.replicate 25 none ++ List.replicate (n - 25) (some (0 : ℚ)))
      (List.replicate 25 none ++ (List.replicate 8 none ++
        List.replicate (n - 25 - 9 + 1) (some (0 : ℚ)))) =
      List.replicate 33 none ++
        List.replicate (n - 33) (some (0 : ℚ)) := by
    have h1 : n - 25 = 8 + (n - 33) := by omega
    have h2 : (33 : ℕ) = 25 + 8 := by omega
    have h3 : n - 25 - 9 + 1 = n - 33 := by omega
    rw [h3, h1, h2, ← List.append_assoc, ← List.replicate_add,
      diffArr_shape 25 8 (n - 33) 0 0, sub_self]
  rw [hh]
  have hlast1 : ((List.replicate 25 (none : Option ℚ)) ++
      List.replicate (n - 25) (some (0 : ℚ))).getLastD none =
      some 0 := getLastD_append_replicate _ _ _ _ (by omega)
  have hlast2 : ((List.replicate 25 (none : Option ℚ)) ++
      (List.replicate (9 - 1) none ++
        List.replicate (n - 25 - 9 + 1) (some (0 : ℚ)))).getLastD none =
      some 0 := by
    rw [← List.append_assoc]
    exact getLastD_append_replicate _ _ _ _ (by omega)
  have hlast3 : ((List.replicate 33 (none : Option ℚ)) ++
      List.replicate (n - 33) (some (0 : ℚ))).getLastD none =
      some 0 := getLastD_append_replicate _ _ _ _ (by omega)
  rw [hlast1, hlast2, hlast3]
  simp [onum]

theorem any_replicate_false {α : Type} (n : ℕ) (a : α) (f : α → Bool)
    (h : f a = false) : (List.replicate n a).any f = false := by
  induction n with
  | zero => rfl
  | succ k ih => simp [List.replicate, h, ih]

theorem getD_replicate (a d : ℚ) (n i : ℕ) (h : i < n) :
    (List.replicate n a).getD i d = a := by
  induction n generalizing i with
  | zero => omega
  | succ k ih =>
    cases i with
    | zero => rfl
    | succ j => simpa [List.replicate] using ih j (by omega)

theorem ratSqrt_zero : ratSqrt 0 = 0 := by
  simp [ratSqrt]

/-- A flat bar with all fields equal to a nonzero constant `c`. -/
def constBar (c : ℚ) : Bar := ⟨c, c, c, c⟩

theorem trTail_constBar (c : ℚ) (m : ℕ) :
    trTail (constBar c) (List.replicate m (constBar c)) =
      List.replicate m 0 := by
  induction m with
  | zero => rfl
  | succ k ih =>
    have ht : calculateTrueRange (constBar c) (constBar c) = 0 := by
      simp [calculateTrueRange, constBar]
    simp only [List.replicate, trTail, ht]
    rw [ih]

theorem trList_constBar (c : ℚ) (n : ℕ) :
    trList (List.replicate n (constBar c)) = List.replicate n 0 := by
  cases n with
  | zero => rfl
  | succ m =>
    simp only [List.replicate, trList, trTail_constBar]
    have h0 : (constBar c).high - (constBar c).low = 0 := by simp [constBar]
    rw [h0]

theorem wilderTail_zero (p m : ℕ) :
    wilderTail p 0 (List.replicate m 0) = List.replicate m 0 := by
  induction m with
  | zero => rfl
  | succ k ih =>
    have hv : ((0 : ℚ) * ((p : ℚ) - 1) + 0) / (p : ℚ) = 0 := by
      simp
    simp only [List.replicate, wilderTail, hv]
    rw [ih]

theorem atrValuesOf_constBar (c : ℚ) (p n : ℕ) (hpn : p ≤ n) :
    atrValuesOf (List.replicate n (constBar c)) p =
      List.replicate (n - p + 1) 0 := by
  simp only [atrValuesOf, trList_constBar, List.take_replicate,
    List.drop_replicate, List.sum_replicate, nsmul_eq_mul, mul_zero, zero_div,
    wilderTail_zero]
  rw [← List.replicate_succ]

theorem constBar_fields_ne (c : ℚ) (hc : c ≠ 0) :
    (decide ((constBar c).high = 0 ∨ (constBar c).low = 0 ∨
      (constBar c).close = 0) : Bool) = false := by
  simp [constBar, hc]

theorem atrValidate_constBar (c : ℚ) (p n : ℕ) (hc : c ≠ 0) (hp : p ≠ 0)
    (hpn : p ≤ n) (noun : String) :
    atrValidate (List.replicate n (constBar c)) p noun = none := by
  simp only [atrValidate, List.length_replicate, hp, if_false,
    if_neg (by omega : ¬ n < p)]
  rw [any_replicate_false _ _ _ (by simp [constBar, hc])]
  simp

theorem calculateATR_constBar (c : ℚ) (p n : ℕ) (hc : c ≠ 0) (hp : p ≠ 0)
    (hpn : p ≤ n) :
    calculateATR (List.replicate n (constBar c)) p = .ok 0 := by
  simp only [calculateATR, atrValidate_constBar c p n hc hp hpn]
  rw [atrValuesOf_constBar c p n hpn, getLastD_replicate _ _ _ (by omega)]

theorem calculateATRArr_constBar (c : ℚ) (p n : ℕ) (hc : c ≠ 0) (hp : p ≠ 0)
    (hpn : p ≤ n) :
    calculateATRArr (List.replicate n (constBar c)) p =
      .ok (List.replicate (p - 1) none ++
        List.replicate (n - p + 1) (some 0)) := by
  simp only [calculateATRArr, atrValidate_constBar c p n hc hp hpn]
  rw [atrValuesOf_constBar c p n hpn, List.map_replicate]

theorem dmPairs_self (b : Bar) (m : ℕ) :
    dmPairs b (List.replicate m b) = List.replicate m (0, 0) := by
  induction m with
  | zero => rfl
  | succ k ih =>
    simp [List.replicate, dmPairs, sub_self, ih]

theorem dmsOf_replicate (b : Bar) (n : ℕ) :
    dmsOf (List.replicate n b) = List.replicate (n - 1) (0, 0) := by
  cases n with
  | zero => rfl
  | succ m => simp only [List.replicate, dmsOf, dmPairs_self, Nat.succ_sub_one]

theorem sumTail_zero (p m : ℕ) :
    sumTail p 0 (List.replicate m 0) = List.replicate m 0 := by
  induction m with
  | zero => rfl
  | succ k ih =>
    have hv : (0 : ℚ) - 0 / (p : ℚ) + 0 = 0 := by simp
    simp only [List.replicate, sumTail, hv]
    rw [ih]

theorem smoothedOf_zero (p m : ℕ) (hpm : p ≤ m) :
    smoothedOf (List.replicate m 0) p = List.replicate (m - p + 1) 0 := by
  simp only [smoothedOf, List.take_replicate, List.drop_replicate,
    List.sum_replicate, nsmul_eq_mul, mul_zero, sumTail_zero]
  rw [← List.replicate_succ]

theorem calculateADX_constBar (c : ℚ) (p n : ℕ) (hc : c ≠ 0) (hp : p ≠ 0)
    (hpn : 2 * p ≤ n) :
    calculateADX (List.replicate n (constBar c)) p =
      .ok ⟨some 0, some 0, some 0⟩ := by
  have hsm := smoothedOf_zero p (n - 1) (by omega)
  have hdi : diOf p 0 0 = 0 := by simp [diOf]
  have hdx : dxOf 0 0 = 0 := by simp [dxOf]
  have hc1 : n - 1 - p + 1 = n - p := by omega
  have hc2 : n - p + 1 - 1 = n - p := by omega
  have hc3 : min p (n - p) = p := by omega
  have hc4 : min (n - p) (n - p) = n - p := Nat.min_self _
  simp only [calculateADX, List.length_replicate, hp, if_false,
    if_neg (by omega : ¬ n < 2 * p)]
  rw [any_replicate_false _ _ _ (by simp [constBar, hc])]
  simp only [Bool.false_eq_true, if_false]
  rw [calculateATRArr_constBar c p n hc hp (by omega)]
  simp only [dmsOf_replicate, List.map_replicate, List.filterMap_append,
    filterMap_id_replicate_none, filterMap_id_replicate_some, List.nil_append,
    List.drop_replicate, hc2, hsm, hc1]
  simp only [show ((0 : ℚ), (0 : ℚ)).1 = 0 from rfl,
    show ((0 : ℚ), (0 : ℚ)).2 = 0 from rfl,
    zipWith_replicate_replicate, hc3, hc4, hdi, hdx,
    List.take_replicate, List.sum_replicate, nsmul_eq_mul, mul_zero, zero_div,
    wilderTail_zero, ← List.replicate_succ]
  simp only [List.drop_replicate, wilderTail_zero, ← List.replicate_succ]
  have hA : ((List.range n).map (fun i =>
      if i < 2 * p - 1 then none
      else (List.replicate (n - p - p + 1) (0 : ℚ)).get?
        (i - (2 * p - 1)))).getLastD none = some 0 := by
    rw [map_range_getLastD _ _ _ (by omega)]
    rw [if_neg (by omega), get?_replicate, if_pos (by omega)]
  have hP : ((List.range n).map (fun i =>
      if i < 2 * p - 1 then none
      else (List.replicate (n - p) (0 : ℚ)).get?
        (i - (2 * p - 1) + p - 1))).getLastD none = some 0 := by
    rw [map_range_getLastD _ _ _ (by omega)]
    rw [if_neg (by omega), get?_replicate, if_pos (by omega)]
  rw [hA, hP]

theorem bbRow_const (c m : ℚ) (p n i : ℕ) (hp : p ≠ 0) (hin : i < n)
    (hge : ¬ i < p - 1) (hpn : p ≤ n) :
    (if i < p - 1 then none
     else
      let priceWindow := ((List.replicate n c).drop (i + 1 - p)).take p
      let sma := priceWindow.sum / p
      let stdDev := calculateStandardDeviation priceWindow sma
      let upper := sma + stdDev * m
      let lower := sma - stdDev * m
      let bw := (upper - lower) / sma
      let currentPrice := (List.replicate n c).getD i 0
      let pb := if upper - lower = 0 then 1 / 2
                else (currentPrice - lower) / (upper - lower)
      some (⟨upper, sma, lower, bw, pb⟩ : BBRow)) =
      some ⟨c, c, c, 0, 1/2⟩ := by
  rw [if_neg hge]
  have hwin : ((List.replicate n c).drop (i + 1 - p)).take p =
      List.replicate p c := by
    rw [List.drop_replicate, List.take_replicate]
    congr 1
    omega
  have hsma : (List.replicate p c).sum / (p : ℚ) = c := by
    rw [List.sum_replicate, nsmul_eq_mul]
    have : (p : ℚ) ≠ 0 := Nat.cast_ne_zero.mpr hp
    field_simp
  have hsd : calculateStandardDeviation (List.replicate p c) c = 0 := by
    simp only [calculateStandardDeviation, List.map_replicate, sub_self]
    norm_num [List.sum_replicate, ratSqrt_zero]
  have hcp : (List.replicate n c).getD i 0 = c := getD_replicate c 0 n i hin
  simp only [hwin, hsma, hsd, hcp, zero_mul, add_zero, sub_zero, sub_self,
    zero_div, if_true]

theorem calculateBollingerBands_replicate (c m : ℚ) (p n : ℕ) (hp : p ≠ 0)
    (hm : 0 < m) (hpn : p ≤ n) :
    calculateBollingerBands (List.replicate n c) p m =
      .ok ⟨c, c, c, 0, 1/2⟩ := by
  simp only [calculateBollingerBands, List.length_replicate, hp, if_false,
    if_neg (not_le.mpr hm), if_neg (by omega : ¬ n < p), bbRows]
  rw [map_range_getLastD _ _ _ (by omega)]
  rw [bbRow_const c m p n (n - 1) hp (by omega) (by omega) hpn]
  rfl

theorem calculateSMA_replicate (c : ℚ) (p n : ℕ) (hp : p ≠ 0) (hpn : p ≤ n) :
    calculateSMA (List.replicate n c) p = .ok c := by
  have hpq : (p : ℚ) ≠ 0 := Nat.cast_ne_zero.mpr hp
  simp only [calculateSMA, List.length_replicate, if_neg (by omega : ¬ n < p),
    List.take_replicate, Nat.min_eq_left hpn, List.sum_replicate, nsmul_eq_mul]
  congr 1
  field_simp

/-! ## Evaluation of the pipeline on flat data -/

theorem scoreStock_flat (n : ℕ) (hn : 200 ≤ n) :
    scoreStock (flatData n) = .ok
      ⟨21/2, "DO_NOT_TRADE", 0, 0, 0, 0, 3, 15/2, 0, SetupType.none⟩ := by
  have hclose : (List.replicate n flatBar).map (·.close) =
      List.replicate n (1 : ℚ) := by
    rw [List.map_replicate]; rfl
  have hvol : (List.replicate n flatBar).map (·.volume) =
      List.replicate n (1 : ℚ) := by
    rw [List.map_replicate]; rfl
  have hlast : (List.replicate n (1 : ℚ)).getLastD 0 = 1 :=
    getLastD_replicate _ _ _ (by omega)
  have hrp : (List.replicate n (1 : ℚ)).drop (n - 10) = List.replicate 10 1 := by
    rw [List.drop_replicate]; congr 1; omega
  have hd5 : (List.replicate n (1 : ℚ)).drop (n - 5) = List.replicate 5 1 := by
    rw [List.drop_replicate]; congr 1; omega
  have hd20 : (List.replicate n (1 : ℚ)).drop (n - 20) = List.replicate 20 1 := by
    rw [List.drop_replicate]; congr 1; omega
  have hpull : detectPullbackInTrend 1 (List.replicate 10 1) 1 1
      (100 - 100 / 101) ⟨0, 0, 0⟩ (List.replicate n 1) = false := by
    norm_num [detectPullbackInTrend]
  have hbreak : detectBreakout ⟨1, 1, 1, 0, 1/2⟩ 1 (List.replicate n 1) = false := by
    norm_num [detectBreakout]
  have hmean : detectMeanReversion ⟨1, 1, 1, 0, 1/2⟩ 1 (100 - 100 / 101) = false := by
    norm_num [detectMeanReversion]
  have hsetup : detectSetupPattern ⟨List.replicate n 1, 1, 1, 100 - 100 / 101,
      ⟨0, 0, 0⟩, ⟨1, 1, 1, 0, 1/2⟩, List.replicate n 1⟩ =
      (SetupType.none, 0) := by
    simp only [detectSetupPattern, List.length_replicate, hlast, hrp, hpull,
      hbreak, hmean, Bool.false_eq_true, if_false]
  have htrend : calculateTrendAlignmentScore ⟨1, 1, 1, 1, ⟨0, 0, 0⟩⟩ = 0 := by
    norm_num [calculateTrendAlignmentScore]
  have hrsis : calculateRSIScore (100 - 100 / 101) = 0 := by
    norm_num [calculateRSIScore]
  have hmacds : calculateMACDScore ⟨0, 0, 0⟩ = 0 := by
    norm_num [calculateMACDScore]
  have hvols : calculateVolumeScore (List.replicate n 1) = 3 := by
    norm_num [calculateVolumeScore, hd5, hd20, List.sum_replicate]
  have hbbs : calculateBollingerScore ⟨1, 1, 1, 0, 1/2⟩ 1 = 15 / 2 := by
    norm_num [calculateBollingerScore]
  have hmrs : calculateMarketRegimeScore ⟨some 0, some 0, some 0⟩
      ⟨1, 1, 1, 0, 1/2⟩ = 0 := by
    norm_num [calculateMarketRegimeScore, onum]
  simp only [scoreStock, flatData, List.length_replicate,
    if_neg (by omega : ¬ n < 50)]
  rw [any_replicate_false _ _ _ (by simp [flatBar])]
  simp only [Bool.false_eq_true, if_false, hclose, hvol]
  rw [calculateEMA_replicate 1 20 n (by omega) (by omega),
    calculateEMA_replicate 1 50 n (by omega) (by omega),
    calculateEMA_replicate 1 200 n (by omega) (by omega),
    calculateRSI_replicate 1 14 n (by omega) (by omega),
    calculateMACD_replicate 1 n (by omega)]
  rw [show flatBar = constBar 1 from rfl,
    calculateADX_constBar 1 14 n (by norm_num) (by omega) (by omega),
    calculateBollingerBands_replicate 1 2 20 n (by omega) (by norm_num) (by omega)]
  simp only [hlast, hsetup, htrend, hrsis, hmacds, hvols, hbbs, hmrs]
  norm_num [round2]

/-! ## Bounds of the ADX pipeline -/

theorem mem_zipWith {α : Type} {f : α → α → α} {z : α} :
    ∀ {l1 l2 : List α}, z ∈ List.zipWith f l1 l2 →
      ∃ x ∈ l1, ∃ y ∈ l2, z = f x y := by
  intro l1
  induction l1 with
  | nil => intro l2 h; simp at h
  | cons a as ih =>
    intro l2 h
    cases l2 with
    | nil => simp at h
    | cons b bs =>
      rw [List.zipWith_cons_cons, List.mem_cons] at h
      rcases h with rfl | h
      · exact ⟨a, List.mem_cons_self a as, b, List.mem_cons_self b bs, rfl⟩
      · obtain ⟨x, hx, y, hy, rfl⟩ := ih h
        exact ⟨x, List.mem_cons_of_mem _ hx, y, List.mem_cons_of_mem _ hy, rfl⟩

theorem trTail_nonneg (prev : Bar) (bs : List Bar) :
    ∀ x ∈ trTail prev bs, 0 ≤ x := by
  induction bs generalizing prev with
  | nil => intro x hx; simp [trTail] at hx
  | cons b bs ih =>
    intro x hx
    rw [trTail, List.mem_cons] at hx
    rcases hx with rfl | hx
    · calc (0 : ℚ) ≤ |b.high - prev.close| := abs_nonneg _
        _ ≤ _ := le_max_of_le_right (le_max_left _ _)
    · exact ih b x hx

theorem trList_nonneg (data : List Bar) (hol : ∀ b ∈ data, b.low ≤ b.high) :
    ∀ x ∈ trList data, 0 ≤ x := by
  cases data with
  | nil => intro x hx; simp [trList] at hx
  | cons b bs =>
    intro x hx
    rw [trList, List.mem_cons] at hx
    rcases hx with rfl | hx
    · have := hol b (List.mem_cons_self b bs)
      linarith
    · exact trTail_nonneg b bs x hx

theorem wilderTail_nonneg (p : ℕ) (hp : p ≠ 0) :
    ∀ (l : List ℚ) (prev : ℚ), 0 ≤ prev → (∀ x ∈ l, 0 ≤ x) →
      ∀ y ∈ wilderTail p prev l, 0 ≤ y := by
  intro l
  induction l with
  | nil => intro prev _ _ y hy; simp [wilderTail] at hy
  | cons x xs ih =>
    intro prev hprev hl y hy
    have hx : 0 ≤ x := hl x (List.mem_cons_self x xs)
    have hpq : (0 : ℚ) < (p : ℚ) := by
      exact_mod_cast Nat.pos_of_ne_zero hp
    have hv : 0 ≤ (prev * ((p : ℚ) - 1) + x) / (p : ℚ) := by
      apply div_nonneg _ (le_of_lt hpq)
      have hp1 : (0 : ℚ) ≤ (p : ℚ) - 1 := by
        have : (1 : ℚ) ≤ (p : ℚ) := by exact_mod_cast Nat.one_le_iff_ne_zero.mpr hp
        linarith
      have := mul_nonneg hprev hp1
      linarith
    rw [wilderTail, List.mem_cons] at hy
    rcases hy with rfl | hy
    · exact hv
    · exact ih _ hv (fun z hz => hl z (List.mem_cons_of_mem _ hz)) y hy

theorem atrValuesOf_nonneg (data : List Bar) (p : ℕ) (hp : p ≠ 0)
    (hol : ∀ b ∈ data, b.low ≤ b.high) :
    ∀ x ∈ atrValuesOf data p, 0 ≤ x := by
  have htr := trList_nonneg data hol
  have hseed : 0 ≤ ((trList data).take p).sum / (p : ℚ) := by
    apply div_nonneg _ (by positivity)
    exact List.sum_nonneg (fun x hx => htr x (List.take_subset _ _ hx))
  intro x hx
  rw [atrValuesOf, List.mem_cons] at hx
  rcases hx with rfl | hx
  · exact hseed
  · exact wilderTail_nonneg p hp _ _ hseed
      (fun z hz => htr z (List.drop_subset _ _ hz)) x hx

theorem dmPairs_nonneg (prev : Bar) (bs : List Bar) :
    ∀ z ∈ dmPairs prev bs, 0 ≤ z.1 ∧ 0 ≤ z.2 := by
  induction bs generalizing prev with
  | nil => intro z hz; simp [dmPairs] at hz
  | cons b bs ih =>
    intro z hz
    rw [dmPairs, List.mem_cons] at hz
    rcases hz with rfl | hz
    · constructor
      · dsimp only
        split
        · next hcond => exact le_of_lt hcond.2
        · exact le_refl 0
      · dsimp only
        split
        · next hcond => exact le_of_lt hcond.2
        · exact le_refl 0
    · exact ih b z hz

theorem dmsOf_nonneg (data : List Bar) :
    ∀ z ∈ dmsOf data, 0 ≤ z.1 ∧ 0 ≤ z.2 := by
  cases data with
  | nil => intro z hz; simp [dmsOf] at hz
  | cons b bs => exact dmPairs_nonneg b bs

theorem sumTail_nonneg (p : ℕ) (hp : p ≠ 0) :
    ∀ (l : List ℚ) (s : ℚ), 0 ≤ s → (∀ x ∈ l, 0 ≤ x) →
      ∀ y ∈ sumTail p s l, 0 ≤ y := by
  intro l
  induction l with
  | nil => intro s _ _ y hy; simp [sumTail] at hy
  | cons x xs ih =>
    intro s hs hl y hy
    have hpq : (1 : ℚ) ≤ (p : ℚ) := by
      exact_mod_cast Nat.one_le_iff_ne_zero.mpr hp
    have hv : 0 ≤ s - s / (p : ℚ) + x := by
      have h1 : s / (p : ℚ) ≤ s := by
        rw [div_le_iff₀ (by linarith)]
        nlinarith
      have hx : 0 ≤ x := hl x (List.mem_cons_self x xs)
      linarith
    rw [sumTail, List.mem_cons] at hy
    rcases hy with rfl | hy
    · exact hv
    · exact ih _ hv (fun z hz => hl z (List.mem_cons_of_mem _ hz)) y hy

theorem smoothedOf_nonneg (dms : List ℚ) (p : ℕ) (hp : p ≠ 0)
    (hdms : ∀ x ∈ dms, 0 ≤ x) :
    ∀ x ∈ smoothedOf dms p, 0 ≤ x := by
  have hseed : 0 ≤ ((dms.take p).sum) :=
    List.sum_nonneg (fun x hx => hdms x (List.take_subset _ _ hx))
  intro x hx
  rw [smoothedOf, List.mem_cons] at hx
  rcases hx with rfl | hx
  · exact hseed
  · exact sumTail_nonneg p hp _ _ hseed
      (fun z hz => hdms z (List.drop_subset _ _ hz)) x hx

theorem diOf_nonneg (p : ℕ) (s a : ℚ) (hs : 0 ≤ s) (ha : 0 ≤ a) :
    0 ≤ diOf p s a := by
  rw [diOf]
  split
  · exact le_refl 0
  · next hne =>
    have ha2 : 0 < a := lt_of_le_of_ne ha (Ne.symm hne)
    positivity

theorem dxOf_bounds (p m : ℚ) (hp : 0 ≤ p) (hm : 0 ≤ m) :
    0 ≤ dxOf p m ∧ dxOf p m ≤ 100 := by
  rw [dxOf]
  split
  · exact ⟨le_refl 0, by norm_num⟩
  · next hne =>
    have hsum : 0 < p + m := lt_of_le_of_ne (by linarith) (Ne.symm hne)
    constructor
    · positivity
    · have habs : |p - m| ≤ p + m := by
        rw [abs_le]
        constructor <;> linarith
      rw [div_mul_eq_mul_div, div_le_iff₀ hsum]
      nlinarith

theorem wilderTail_bounded (p : ℕ) (hp : p ≠ 0) :
    ∀ (l : List ℚ) (prev : ℚ), 0 ≤ prev → prev ≤ 100 →
      (∀ x ∈ l, 0 ≤ x ∧ x ≤ 100) →
      ∀ y ∈ wilderTail p prev l, 0 ≤ y ∧ y ≤ 100 := by
  intro l
  induction l with
  | nil => intro prev _ _ _ y hy; simp [wilderTail] at hy
  | cons x xs ih =>
    intro prev hprev0 hprev100 hl y hy
    have hx := hl x (List.mem_cons_self x xs)
    have hpq : (1 : ℚ) ≤ (p : ℚ) := by
      exact_mod_cast Nat.one_le_iff_ne_zero.mpr hp
    have hv0 : 0 ≤ (prev * ((p : ℚ) - 1) + x) / (p : ℚ) := by
      apply div_nonneg _ (by linarith)
      nlinarith [hx.1]
    have hv100 : (prev * ((p : ℚ) - 1) + x) / (p : ℚ) ≤ 100 := by
      rw [div_le_iff₀ (by linarith)]
      nlinarith [hx.2]
    rw [wilderTail, List.mem_cons] at hy
    rcases hy with rfl | hy
    · exact ⟨hv0, hv100⟩
    · exact ih _ hv0 hv100 (fun z hz => hl z (List.mem_cons_of_mem _ hz)) y hy



theorem adxValues_bounded (dx : List ℚ) (p : ℕ) (hp : p ≠ 0)
    (hdx : ∀ x ∈ dx, 0 ≤ x ∧ x ≤ 100) :
    ∀ y ∈ ((dx.take p).sum / (p : ℚ)) ::
      wilderTail p ((dx.take p).sum / (p : ℚ)) (dx.drop p), 0 ≤ y ∧ y ≤ 100 := by
  have hpq : (0 : ℚ) < (p : ℚ) := by exact_mod_cast Nat.pos_of_ne_zero hp
  have hseed0 : 0 ≤ (dx.take p).sum / (p : ℚ) := by
    apply div_nonneg _ (le_of_lt hpq)
    exact List.sum_nonneg (fun x hx => (hdx x (List.take_subset _ _ hx)).1)
  have hseed100 : (dx.take p).sum / (p : ℚ) ≤ 100 := by
    rw [div_le_iff₀ hpq]
    have hlen : (dx.take p).length ≤ p := by
      simpa using List.length_take_le p dx
    have hsum : (dx.take p).sum ≤ ((dx.take p).length : ℚ) * 100 := by
      have := List.sum_le_card_nsmul (dx.take p) 100
        (fun x hx => (hdx x (List.take_subset _ _ hx)).2)
      simpa [nsmul_eq_mul] using this
    calc (dx.take p).sum ≤ ((dx.take p).length : ℚ) * 100 := hsum
      _ ≤ (p : ℚ) * 100 := by
          have : ((dx.take p).length : ℚ) ≤ (p : ℚ) := by exact_mod_cast hlen
          nlinarith
      _ = 100 * (p : ℚ) := by ring
  intro y hy
  rw [List.mem_cons] at hy
  rcases hy with rfl | hy
  · exact ⟨hseed0, hseed100⟩
  · exact wilderTail_bounded p hp _ _ hseed0 hseed100
      (fun z hz => hdx z (List.drop_subset _ _ hz)) y hy

theorem filterMap_id_map_some {α : Type} (l : List α) :
    (l.map some).filterMap id = l := by
  induction l with
  | nil => rfl
  | cons x xs ih => simp [ih]

theorem getLastD_padded_get (n pad : ℕ) (L : List ℚ) (g : ℕ → ℕ) (a : ℚ)
    (h : ((List.range n).map
      (fun i => if i < pad then none else L.get? (g i))).getLastD none =
      some a) : a ∈ L := by
  cases n with
  | zero => simp at h
  | succ m =>
    rw [map_range_getLastD _ _ _ (by omega)] at h
    split at h
    · simp at h
    · exact List.get?_mem h

/-! ## Bounds of the scoring rubric -/

theorem indicator_nonneg_le (c : Prop) [Decidable c] (v : ℚ) (hv : 0 ≤ v) :
    0 ≤ (if c then v else 0) ∧ (if c then v else 0) ≤ v := by
  split <;> constructor <;> first | exact le_refl _ | assumption | exact hv

theorem calculateTrendAlignmentScore_bounds (t : TrendInput) :
    0 ≤ calculateTrendAlignmentScore t ∧
      calculateTrendAlignmentScore t ≤ 35 / 2 := by
  rw [calculateTrendAlignmentScore]
  have h1 := indicator_nonneg_le (t.currentPrice > t.ema20) (1 : ℚ) (by norm_num)
  have h2 := indicator_nonneg_le (t.ema20 > t.ema50) (1 : ℚ) (by norm_num)
  have h3 := indicator_nonneg_le (t.ema50 > t.ema200) (1 : ℚ) (by norm_num)
  have h4 := indicator_nonneg_le (t.macd.macdLine > t.macd.signalLine) (1 : ℚ) (by norm_num)
  have h5 := indicator_nonneg_le (t.macd.macdLine > 0) (1 : ℚ) (by norm_num)
  have h6 := indicator_nonneg_le (t.macd.histogram > 0) (1 : ℚ) (by norm_num)
  have h7 := indicator_nonneg_le (|t.macd.histogram| > 2) (1 : ℚ) (by norm_num)
  constructor
  · nlinarith [h1.1, h2.1, h3.1, h4.1, h5.1, h6.1, h7.1]
  · nlinarith [h1.2, h2.2, h3.2, h4.2, h5.2, h6.2, h7.2,
      h1.1, h2.1, h3.1, h4.1, h5.1, h6.1, h7.1]

theorem detectSetupPattern_score_bounds (inp : SetupInput) :
    0 ≤ (detectSetupPattern inp).2 ∧ (detectSetupPattern inp).2 ≤ 15 := by
  rw [detectSetupPattern]
  split_ifs <;> norm_num

theorem calculateRSIScore_bounds (r : ℚ) :
    0 ≤ calculateRSIScore r ∧ calculateRSIScore r ≤ 10 := by
  rw [calculateRSIScore]
  split_ifs <;> norm_num

theorem calculateMACDScore_bounds (m : MACDOut) :
    0 ≤ calculateMACDScore m ∧ calculateMACDScore m ≤ 10 := by
  rw [calculateMACDScore]
  refine ⟨le_min ?_ (by norm_num), min_le_right _ _⟩
  have h1 := indicator_nonneg_le (m.macdLine > m.signalLine) (5 : ℚ) (by norm_num)
  have h2 := indicator_nonneg_le (m.macdLine > 0) (3 : ℚ) (by norm_num)
  have h3 := indicator_nonneg_le (|m.histogram| > 1) (2 : ℚ) (by norm_num)
  nlinarith [h1.1, h2.1, h3.1]

theorem calculateVolumeScore_bounds (v : List ℚ) :
    0 ≤ calculateVolumeScore v ∧ calculateVolumeScore v ≤ 10 := by
  rw [calculateVolumeScore]
  split_ifs <;> norm_num

theorem calculateBollingerScore_bounds (bb : BBRow) (cp : ℚ) :
    0 ≤ calculateBollingerScore bb cp ∧ calculateBollingerScore bb cp ≤ 15 / 2 := by
  rw [calculateBollingerScore]
  split_ifs <;> norm_num

theorem calculateMarketRegimeScore_bounds (adx : ADXOut) (bb : BBRow) :
    0 ≤ calculateMarketRegimeScore adx bb ∧
      calculateMarketRegimeScore adx bb ≤ 15 := by
  rw [calculateMarketRegimeScore]
  refine ⟨le_min ?_ (by norm_num), min_le_right _ _⟩
  have h1 := indicator_nonneg_le
    (onum adx.plusDI > onum adx.minusDI) (5 : ℚ) (by norm_num)
  have hbase : (0 : ℚ) ≤
      (if 25 ≤ onum adx.adx ∧ onum adx.adx ≤ 50 then 10
       else if 20 ≤ onum adx.adx ∧ onum adx.adx ≤ 60 then 7
       else if 15 ≤ onum adx.adx ∧ onum adx.adx ≤ 70 then 4
       else if onum adx.adx < 15 then 0
       else 2) := by
    split_ifs <;> norm_num
  nlinarith [h1.1]

theorem round_le_round_of_le {x y : ℚ} (h : x ≤ y) : round x ≤ round y := by
  rw [round_eq, round_eq]
  exact Int.floor_mono (by linarith)

theorem round2_le_of_le {x y : ℚ} (h : x ≤ y) : round2 x ≤ round2 y := by
  simp only [round2]
  have := round_le_round_of_le (mul_le_mul_of_nonneg_right h (by norm_num : (0:ℚ) ≤ 100))
  have hc : ((round (x * 100) : ℤ) : ℚ) ≤ ((round (y * 100) : ℤ) : ℚ) := by
    exact_mod_cast this
  linarith

/-! ## Scan orchestrator lemmas -/

theorem outcome_partition_length (l : List ProcessOutcome) :
    (l.filterMap successOf).length + (l.filterMap failureOf).length =
      l.length := by
  induction l with
  | nil => rfl
  | cons o os ih =>
    cases o with
    | success r => simp [successOf, failureOf, ih]; omega
    | failure s e => simp [successOf, failureOf, ih]; omega

/-- C7: when per-symbol processing (fetch, timeout, or scoring) fails for
some symbols, `scanStocks` still returns a report: each failure is recorded
as an error entry carrying the symbol and message, `failed` counts the
failing symbols, `successful` counts the succeeding ones, the two add up to
the number of symbols scanned, and the scan itself does not raise. -/
theorem scanStocks_partial_failure (stocks : List String)
    (options : ScanOptions) (fetch : Fetch) (hne : stocks ≠ [])
    (hopts : validateScanOptions options = .ok ()) :
    ∃ report, scanStocks stocks options fetch = .ok report ∧
      report.totalScanned = stocks.length ∧
      report.successful =
        ((stocks.map (processStockWithScore fetch)).filterMap successOf).length ∧
      report.failed =
        ((stocks.map (processStockWithScore fetch)).filterMap failureOf).length ∧
      report.errors =
        (stocks.map (processStockWithScore fetch)).filterMap failureOf ∧
      report.successful + report.failed = stocks.length := by
  have hemp : stocks.isEmpty = false := by
    cases stocks with
    | nil => exact absurd rfl hne
    | cons a as => rfl
  refine ⟨⟨stocks.length,
    ((stocks.map (processStockWithScore fetch)).filterMap successOf).length,
    ((stocks.map (processStockWithScore fetch)).filterMap failureOf).length,
    (qualifiedOf ((stocks.map (processStockWithScore fetch)).filterMap successOf)
      options.minScore).length,
    (qualifiedOf ((stocks.map (processStockWithScore fetch)).filterMap successOf)
      options.minScore).take options.maxResults,
    (stocks.map (processStockWithScore fetch)).filterMap failureOf⟩,
    ?_, rfl, rfl, rfl, rfl, ?_⟩
  · rw [scanStocks, hemp]
    simp only [Bool.false_eq_true, if_false, hopts]
  · rw [← List.length_map stocks (processStockWithScore fetch)]
    exact outcome_partition_length _


theorem scoreDesc_trans (a b c : StockResult) (h1 : scoreDesc a b = true)
    (h2 : scoreDesc b c = true) : scoreDesc a c = true := by
  simp only [scoreDesc, decide_eq_true_eq] at *
  linarith

theorem scoreDesc_total (a b : StockResult) :
    (scoreDesc a b || scoreDesc b a) = true := by
  simp only [scoreDesc, Bool.or_eq_true, decide_eq_true_eq]
  exact le_total b.score a.score

theorem sortedByScore_pairwise (results : List StockResult) :
    List.Pairwise (fun a b => b.score ≤ a.score) (sortedByScore results) := by
  have h := List.sorted_mergeSort scoreDesc_trans scoreDesc_total results
  exact h.imp (fun hab => by
    simpa [scoreDesc, decide_eq_true_eq] using hab)

theorem qualifiedOf_pairwise (results : List StockResult) (minScore : ℚ) :
    List.Pairwise (fun a b => b.score ≤ a.score)
      (qualifiedOf results minScore) :=
  (sortedByScore_pairwise results).filter _

/-- C8: the `stockList` of a successful scan is exactly
`rankAndFilter` of the successful results: sorted in descending score
order, containing only scores `≥ minScore` (inclusive), truncated to
`maxResults` entries (`min maxResults #qualifying` in length), and every
qualifying result left out scores no higher than every listed one. -/
theorem scanStocks_ranking (stocks : List String) (options : ScanOptions)
    (fetch : Fetch) (report : ScanReport)
    (h : scanStocks stocks options fetch = .ok report) :
    report.stockList =
      rankAndFilter
        ((stocks.map (processStockWithScore fetch)).filterMap successOf)
        options.minScore options.maxResults ∧
    List.Pairwise (fun a b => b.score ≤ a.score) report.stockList ∧
    (∀ s ∈ report.stockList, options.minScore ≤ s.score) ∧
    report.stockList.length = min options.maxResults
      (((stocks.map (processStockWithScore fetch)).filterMap successOf).countP
        (fun s => options.minScore ≤ s.score)) ∧
    (∀ r ∈ (stocks.map (processStockWithScore fetch)).filterMap successOf,
      options.minScore ≤ r.score → r ∉ report.stockList →
      ∀ s ∈ report.stockList, r.score ≤ s.score) := by
  rw [scanStocks] at h
  split at h
  · exact absurd h (by simp)
  split at h
  · exact absurd h (by simp)
  rw [Except.ok.injEq] at h
  subst h
  set results := (stocks.map (processStockWithScore fetch)).filterMap successOf
    with hres
  refine ⟨rfl, ?_, ?_, ?_, ?_⟩
  · exact (qualifiedOf_pairwise results options.minScore).sublist
      (List.take_sublist _ _) |>.imp id
  · intro s hs
    have hs2 := List.mem_of_mem_take hs
    rw [qualifiedOf, List.mem_filter] at hs2
    exact of_decide_eq_true hs2.2
  · rw [List.length_take]
    congr 1
    rw [qualifiedOf, sortedByScore, ← List.countP_eq_length_filter]
    exact (List.mergeSort_perm results scoreDesc).countP_eq _
  · intro r hr hq hnot s hs
    have hrs : r ∈ qualifiedOf results options.minScore := by
      rw [qualifiedOf, List.mem_filter]
      refine ⟨?_, decide_eq_true hq⟩
      rw [sortedByScore]
      exact ((List.mergeSort_perm results scoreDesc).mem_iff).mpr hr
    have hsplit := List.take_append_drop options.maxResults
      (qualifiedOf results options.minScore)
    have hpw := qualifiedOf_pairwise results options.minScore
    rw [← hsplit, List.pairwise_append] at hpw
    have hrdrop : r ∈ (qualifiedOf results options.minScore).drop
        options.maxResults := by
      rcases List.mem_append.mp (by rw [hsplit]; exact hrs) with hin | hin
      · exact absurd hin hnot
      · exact hin
    exact hpw.2.2 s hs r hrdrop

/-- C10: whenever `scoreStock` returns normally, each component score is at
most its rubric maximum (17.5, 15, 10, 10, 10, 7.5, 15) and `totalScore` is
at most their sum 85; in particular no input can reach a total above 85. -/
theorem scoreStock_component_caps (data : List Bar) (r : ScoreBreakdown)
    (h : scoreStock data = .ok r) :
    r.trendScore ≤ 35 / 2 ∧ r.setupScore ≤ 15 ∧ r.rsiScore ≤ 10 ∧
    r.macdScore ≤ 10 ∧ r.volumeScore ≤ 10 ∧ r.bollingerScore ≤ 15 / 2 ∧
    r.marketRegimeScore ≤ 15 ∧ r.totalScore ≤ 85 := by
  simp only [scoreStock] at h
  split at h
  · exact absurd h (by simp)
  split at h
  · exact absurd h (by simp)
  cases h20 : calculateEMA (data.map (·.close)) 20 with
  | error e => rw [h20] at h; exact absurd h (by simp)
  | ok ema20 =>
  rw [h20] at h
  cases h50 : calculateEMA (data.map (·.close)) 50 with
  | error e => rw [h50] at h; exact absurd h (by simp)
  | ok ema50 =>
  rw [h50] at h
  cases h200 : calculateEMA (data.map (·.close)) 200 with
  | error e => rw [h200] at h; exact absurd h (by simp)
  | ok ema200 =>
  rw [h200] at h
  cases hrsi : calculateRSI (data.map (·.close)) 14 with
  | error e => rw [hrsi] at h; exact absurd h (by simp)
  | ok rsi14 =>
  rw [hrsi] at h
  cases hmacd : calculateMACD (data.map (·.close)) 12 26 9 with
  | error e => rw [hmacd] at h; exact absurd h (by simp)
  | ok macd =>
  rw [hmacd] at h
  cases hadx : calculateADX data 14 with
  | error e => rw [hadx] at h; exact absurd h (by simp)
  | ok adx =>
  rw [hadx] at h
  cases hbb : calculateBollingerBands (data.map (·.close)) 20 2 with
  | error e => rw [hbb] at h; exact absurd h (by simp)
  | ok bb =>
  rw [hbb] at h
  rw [Except.ok.injEq] at h
  subst h
  have ht := calculateTrendAlignmentScore_bounds
    ⟨(data.map (·.close)).getLastD 0, ema20, ema50, ema200, macd⟩
  have hs := detectSetupPattern_score_bounds
    ⟨data.map (·.close), ema20, ema50, rsi14, macd, bb, data.map (·.volume)⟩
  have hr := calculateRSIScore_bounds rsi14
  have hm := calculateMACDScore_bounds macd
  have hv := calculateVolumeScore_bounds (data.map (·.volume))
  have hb := calculateBollingerScore_bounds bb ((data.map (·.close)).getLastD 0)
  have hg := calculateMarketRegimeScore_bounds adx bb
  have h85 : round2 85 = (85 : ℚ) := by norm_num [round2]
  have h175 : round2 (35 / 2) = (35 / 2 : ℚ) := by norm_num [round2]
  have h15 : round2 15 = (15 : ℚ) := by norm_num [round2]
  have h10 : round2 10 = (10 : ℚ) := by norm_num [round2]
  have h75 : round2 (15 / 2) = (15 / 2 : ℚ) := by norm_num [round2]
  refine ⟨?_, ?_, ?_, ?_, ?_, ?_, ?_, ?_⟩
  · exact h175 ▸ round2_le_of_le ht.2
  · exact h15 ▸ round2_le_of_le hs.2
  · exact h10 ▸ round2_le_of_le hr.2
  · exact h10 ▸ round2_le_of_le hm.2
  · exact h10 ▸ round2_le_of_le hv.2
  · exact h75 ▸ round2_le_of_le hb.2
  · exact h15 ▸ round2_le_of_le hg.2
  · refine h85 ▸ round2_le_of_le ?_
    linarith [ht.2, hs.2, hr.2, hm.2, hv.2, hb.2, hg.2]

/-- C5 (amended): for every OHLC input accepted by `calculateADX` whose bars
satisfy `low ≤ high`, the returned `adx` value lies within `[0, 100]` and
`plusDI`/`minusDI` are nonnegative.  The claimed upper bound of 100 for
`plusDI`/`minusDI` is false (see the counterexample): only the lower bound
holds for them. -/
theorem calculateADX_bounds (data : List Bar) (period : ℕ) (out : ADXOut)
    (hol : ∀ b ∈ data, b.low ≤ b.high)
    (h : calculateADX data period = .ok out) :
    (∀ a, out.adx = some a → 0 ≤ a ∧ a ≤ 100) ∧
    (∀ q, out.plusDI = some q → 0 ≤ q) ∧
    (∀ q, out.minusDI = some q → 0 ≤ q) := by
  simp only [calculateADX] at h
  split at h
  · exact absurd h (by simp)
  split at h
  · exact absurd h (by simp)
  split at h
  · exact absurd h (by simp)
  next hp _ _ =>
  cases hatr : calculateATRArr data period with
  | error e => rw [hatr] at h; exact absurd h (by simp)
  | ok arr =>
    rw [hatr] at h
    rw [Except.ok.injEq] at h
    subst h
    -- characterize the ATR array
    simp only [calculateATRArr] at hatr
    split at hatr
    · exact absurd hatr (by simp)
    next hval =>
    rw [Except.ok.injEq] at hatr
    subst hatr
    have hAV : (List.filterMap id
        (List.replicate (period - 1) none ++
          (atrValuesOf data period).map some)) = atrValuesOf data period := by
      rw [List.filterMap_append, filterMap_id_replicate_none,
        filterMap_id_map_some, List.nil_append]
    have hA : ∀ x ∈ List.drop 1 (List.filterMap id
        (List.replicate (period - 1) none ++
          (atrValuesOf data period).map some)), 0 ≤ x := by
      rw [hAV]
      intro x hx
      exact atrValuesOf_nonneg data period hp hol x (List.drop_subset _ _ hx)
    have hSP : ∀ x ∈ smoothedOf ((dmsOf data).map Prod.fst) period, 0 ≤ x := by
      apply smoothedOf_nonneg _ _ hp
      intro x hx
      obtain ⟨z, hz, rfl⟩ := List.mem_map.mp hx
      exact (dmsOf_nonneg data z hz).1
    have hSM : ∀ x ∈ smoothedOf ((dmsOf data).map Prod.snd) period, 0 ≤ x := by
      apply smoothedOf_nonneg _ _ hp
      intro x hx
      obtain ⟨z, hz, rfl⟩ := List.mem_map.mp hx
      exact (dmsOf_nonneg data z hz).2
    have hP : ∀ x ∈ List.zipWith (fun s a => diOf period s a)
        (smoothedOf ((dmsOf data).map Prod.fst) period)
        (List.drop 1 (List.filterMap id
          (List.replicate (period - 1) none ++
            (atrValuesOf data period).map some))), 0 ≤ x := by
      intro x hx
      obtain ⟨s, hs, a, ha, rfl⟩ := mem_zipWith hx
      exact diOf_nonneg period s a (hSP s hs) (hA a ha)
    have hM : ∀ x ∈ List.zipWith (fun s a => diOf period s a)
        (smoothedOf ((dmsOf data).map Prod.snd) period)
        (List.drop 1 (List.filterMap id
          (List.replicate (period - 1) none ++
            (atrValuesOf data period).map some))), 0 ≤ x := by
      intro x hx
      obtain ⟨s, hs, a, ha, rfl⟩ := mem_zipWith hx
      exact diOf_nonneg period s a (hSM s hs) (hA a ha)
    have hDX : ∀ x ∈ List.zipWith dxOf
        (List.zipWith (fun s a => diOf period s a)
          (smoothedOf ((dmsOf data).map Prod.fst) period)
          (List.drop 1 (List.filterMap id
            (List.replicate (period - 1) none ++
              (atrValuesOf data period).map some))))
        (List.zipWith (fun s a => diOf period s a)
          (smoothedOf ((dmsOf data).map Prod.snd) period)
          (List.drop 1 (List.filterMap id
            (List.replicate (period - 1) none ++
              (atrValuesOf data period).map some)))),
        0 ≤ x ∧ x ≤ 100 := by
      intro x hx
      obtain ⟨u, hu, v, hv, rfl⟩ := mem_zipWith hx
      exact dxOf_bounds u v (hP u hu) (hM v hv)
    refine ⟨?_, ?_, ?_⟩
    · intro a ha
      have hmem := getLastD_padded_get _ _ _ _ _ ha
      exact adxValues_bounded _ period hp hDX a hmem
    · intro q hq
      have hmem := getLastD_padded_get _ _ _ _ _ hq
      exact hP q hmem
    · intro q hq
      have hmem := getLastD_padded_get _ _ _ _ _ hq
      exact hM q hmem

/-! ## The claims -/

/-- Flat-data per-symbol processing succeeds with the flat score record. -/
theorem processStockWithScore_flat (f : Fetch) (s : String)
    (hf : f s = .ok (flatData 200)) :
    processStockWithScore f s =
      .success ⟨s, 21/2, "DO_NOT_TRADE", SetupType.none, 1⟩ := by
  have hne : (flatData 200).isEmpty = false := by
    rw [flatData, show (200 : ℕ) = 199 + 1 from rfl, List.replicate_succ]
    rfl
  have hlast : (flatData 200).getLastD ⟨0, 0, 0, 0⟩ = flatBar := by
    rw [flatData]
    exact getLastD_replicate _ _ _ (by omega)
  rw [processStockWithScore, hf]
  simp only [hne, Bool.false_eq_true, if_false,
    scoreStock_flat 200 (le_refl 200), hlast]
  norm_num [flatBar]

/-- C1: the claim says `scoreStock` returns normally on every valid series of
length at least 50.  It does not: a 50-bar series of well-formed bars makes
`scoreStock` raise inside `calculateEMA(closes, 200)`, which requires 200
prices.  The code's own comment ("Need at least 50 data points") and the
spec's precondition say 50 bars suffice. -/
theorem scoreStock_fifty_bars_raises :
    scoreStock (flatData 50) =
      .error "Insufficient data: need at least 200 prices, got 50" := by
  have hclose : (List.replicate 50 flatBar).map (·.close) =
      List.replicate 50 (1 : ℚ) := by
    rw [List.map_replicate]; rfl
  simp only [scoreStock, flatData, List.length_replicate]
  rw [if_neg (by omega)]
  rw [any_replicate_false _ _ _ (by simp [flatBar])]
  simp only [Bool.false_eq_true, if_false, hclose]
  rw [calculateEMA_replicate 1 20 50 (by omega) (by omega),
    calculateEMA_replicate 1 50 50 (by omega) (by omega)]
  have h200 : calculateEMA (List.replicate 50 (1 : ℚ)) 200 =
      .error "Insufficient data: need at least 200 prices, got 50" := by
    simp only [calculateEMA, List.length_replicate]
    rw [if_neg (by omega), if_pos (by omega)]
    rfl
  rw [h200]

-- C2 theorem: the repo's own 30-bar fixture makes scoreStock raise at the length check

/-- C2: the claim (and the repo's own test fixture, which carries
`expectedScore.min = 85` and `setupType = PULLBACK_IN_TREND`) says a 30-bar
uptrend-with-pullback fixture classifies as a pullback scoring at least 80.
The code instead raises "Insufficient data" for every 30-bar input. -/
theorem scoreStock_thirty_bar_fixture_raises :
    scoreStock perfectBullishSetup =
      .error "Insufficient data: need at least 50 data points, got 30" := by
  have hlen : perfectBullishSetup.length = 30 := by
    simp [perfectBullishSetup]
  simp only [scoreStock, hlen]
  rw [if_pos (by omega)]
  rfl

-- C9 theorem: a present, numeric zero volume is rejected as a missing field

/-- C3: the claim says a strictly increasing series yields RSI exactly 100
(the repo's own test asserts `toBe(100)`).  The code's `avgLoss == 0` branch
sets `RS = 100`, so the RSI saturates at `100 - 100/101 = 10000/101 ≈
99.0099`, not 100.  The decreasing half of the claim holds: RSI is exactly
0. -/
theorem rsi_extremes :
    calculateRSI incrPrices 14 = .ok (10000 / 101) ∧
    (10000 / 101 : ℚ) ≠ 100 ∧
    calculateRSI decrPrices 14 = .ok 0 := by
  refine ⟨?_, by norm_num, ?_⟩
  · norm_num [calculateRSI, incrPrices, changesOf, gainOf, lossOf, wilder,
      rsiLoop, rsiOf]
  · norm_num [calculateRSI, decrPrices, changesOf, gainOf, lossOf, wilder,
      rsiLoop, rsiOf]

/-- C4: on constant series the indicators return the degenerate values
claimed — EMA, SMA and the Bollinger middle band equal the constant with
bandwidth 0, ATR on flat bars is 0, and the MACD line, signal and histogram
are all 0 — except RSI: the claim (and the repo's `flat` fixture) says 50,
but the `avgLoss == 0` branch makes the code return `10000/101 ≈ 99.01`. -/
theorem constant_series_indicators :
    calculateEMA (List.replicate 20 (100 : ℚ)) 20 = .ok 100 ∧
    calculateSMA (List.replicate 20 (100 : ℚ)) 20 = .ok 100 ∧
    calculateBollingerBands (List.replicate 20 (100 : ℚ)) 20 2 =
      .ok ⟨100, 100, 100, 0, 1/2⟩ ∧
    calculateATR (List.replicate 14 (constBar 100)) 14 = .ok 0 ∧
    calculateMACD (List.replicate 35 (100 : ℚ)) 12 26 9 = .ok ⟨0, 0, 0⟩ ∧
    calculateRSI (List.replicate 15 (100 : ℚ)) 14 = .ok (10000 / 101) ∧
    (10000 / 101 : ℚ) ≠ 50 := by
  refine ⟨calculateEMA_replicate 100 20 20 (by omega) (by omega),
    calculateSMA_replicate 100 20 20 (by omega) (by omega),
    calculateBollingerBands_replicate 100 2 20 20 (by omega) (by norm_num) (by omega),
    calculateATR_constBar 100 14 14 (by norm_num) (by omega) (by omega),
    calculateMACD_replicate 100 35 (by omega),
    ?_, by norm_num⟩
  rw [calculateRSI_replicate 100 14 15 (by omega) (by omega)]
  norm_num

set_option maxHeartbeats 1000000 in
/-- C5 counterexample: on four well-formed gap-up bars with period 2,
`calculateADX` returns `plusDI = 320/3 ≈ 106.7 > 100`, refuting the claimed
`[0, 100]` bound for the directional indices. -/
theorem adx_plusDI_exceeds_100 :
    calculateADX gapUpBars 2 = .ok ⟨some 100, some (320/3), some 0⟩ ∧
    ¬ ((320 / 3 : ℚ) ≤ 100) := by
  refine ⟨?_, by norm_num⟩
  have hatr : calculateATRArr gapUpBars 2 =
      .ok [none, some (3/4), some (7/8), some (15/16)] := by
    norm_num [calculateATRArr, atrValidate, atrValuesOf, trList, trTail,
      calculateTrueRange, wilderTail, gapUpBars, List.replicate, abs_of_nonneg]
  have hdms : dmsOf gapUpBars = [(1, 0), (1, 0), (1, 0)] := by
    norm_num [dmsOf, dmPairs, gapUpBars]
  simp only [calculateADX, gapUpBars, List.length_cons, List.length_nil]
  rw [if_neg (by omega), if_neg (by omega)]
  rw [if_neg (by norm_num)]
  rw [show ([⟨1, 1/2, 1, 1⟩, ⟨2, 3/2, 2, 1⟩, ⟨3, 5/2, 3, 1⟩,
    ⟨4, 7/2, 4, 1⟩] : List Bar) = gapUpBars from rfl, hatr, hdms]
  norm_num [smoothedOf, sumTail, diOf, dxOf, wilderTail, List.range_succ,
    abs_of_nonneg]
  norm_num [List.filterMap_cons, List.filterMap_nil, List.tail_cons,
    List.getElem?_cons_succ, List.getElem?_cons_zero, dxOf, abs_of_nonneg]

/-- C5 witness: the amended bound theorem applied to a concrete flat
28-bar series with period 14. -/
theorem calculateADX_bounds_witness :
    calculateADX (List.replicate 28 (constBar 1)) 14 =
      .ok ⟨some 0, some 0, some 0⟩ ∧ ((0 : ℚ) ≤ 0 ∧ (0 : ℚ) ≤ 100) := by
  have hadx := calculateADX_constBar 1 14 28 (by norm_num) (by omega) (by omega)
  refine ⟨hadx, ?_⟩
  exact (calculateADX_bounds (List.replicate 28 (constBar 1)) 14
    ⟨some 0, some 0, some 0⟩
    (fun b hb => by rw [List.eq_of_mem_replicate hb]; norm_num [constBar])
    hadx).1 0 rfl

/-- C6: `detectSetupPattern` checks the patterns in the fixed priority order
pullback-in-trend (score 15), then breakout (12), then mean reversion (10),
returning the first whose detector fires; when none fires it returns the
no-setup tag (the JS `null`, the `NONE` member of the enum) with score 0,
and the returned tag is always one of the four enum members. -/
theorem detectSetupPattern_priority (inp : SetupInput) :
    ((detectSetupPattern inp).1 = SetupType.pullbackInTrend ∨
     (detectSetupPattern inp).1 = SetupType.breakout ∨
     (detectSetupPattern inp).1 = SetupType.meanReversion ∨
     (detectSetupPattern inp).1 = SetupType.none) ∧
    (detectPullbackInTrend (inp.closes.getLastD 0)
        (inp.closes.drop (inp.closes.length - 10)) inp.ema20 inp.ema50
        inp.rsi14 inp.macd inp.volumes = true →
      detectSetupPattern inp = (SetupType.pullbackInTrend, 15)) ∧
    (detectPullbackInTrend (inp.closes.getLastD 0)
        (inp.closes.drop (inp.closes.length - 10)) inp.ema20 inp.ema50
        inp.rsi14 inp.macd inp.volumes = false →
      detectBreakout inp.bb (inp.closes.getLastD 0) inp.volumes = true →
      detectSetupPattern inp = (SetupType.breakout, 12)) ∧
    (detectPullbackInTrend (inp.closes.getLastD 0)
        (inp.closes.drop (inp.closes.length - 10)) inp.ema20 inp.ema50
        inp.rsi14 inp.macd inp.volumes = false →
      detectBreakout inp.bb (inp.closes.getLastD 0) inp.volumes = false →
      detectMeanReversion inp.bb (inp.closes.getLastD 0) inp.rsi14 = true →
      detectSetupPattern inp = (SetupType.meanReversion, 10)) ∧
    (detectPullbackInTrend (inp.closes.getLastD 0)
        (inp.closes.drop (inp.closes.length - 10)) inp.ema20 inp.ema50
        inp.rsi14 inp.macd inp.volumes = false →
      detectBreakout inp.bb (inp.closes.getLastD 0) inp.volumes = false →
      detectMeanReversion inp.bb (inp.closes.getLastD 0) inp.rsi14 = false →
      detectSetupPattern inp = (SetupType.none, 0)) := by
  cases hpb : detectPullbackInTrend (inp.closes.getLastD 0)
      (inp.closes.drop (inp.closes.length - 10)) inp.ema20 inp.ema50
      inp.rsi14 inp.macd inp.volumes <;>
  cases hbk : detectBreakout inp.bb (inp.closes.getLastD 0) inp.volumes <;>
  cases hmr : detectMeanReversion inp.bb (inp.closes.getLastD 0) inp.rsi14 <;>
  simp only [detectSetupPattern, hpb, hbk, hmr] <;> simp

theorem detectSetupPattern_priority_witness :
    detectSetupPattern noSetupInput = (SetupType.none, 0) := by
  refine (detectSetupPattern_priority noSetupInput).2.2.2.2 ?_ ?_ ?_
  · norm_num [detectPullbackInTrend, noSetupInput]
  · norm_num [detectBreakout, noSetupInput]
  · norm_num [detectMeanReversion, noSetupInput]

/-- C7 witness: three symbols of which one fetch times out yield
`failed = 1`, `successful = 2`, and the timed-out symbol in the error list
with the timeout message; the scan does not raise. -/
theorem scan_timeout_witness :
    ∃ report, scanStocks ["AAA.NS", "BBB.NS", "CCC.NS"] {} timeoutFetch =
        .ok report ∧
      report.totalScanned = 3 ∧ report.successful = 2 ∧ report.failed = 1 ∧
      report.errors = [("BBB.NS", "Operation timed out after 30000ms")] := by
  have hA := processStockWithScore_flat timeoutFetch "AAA.NS"
    (by rw [timeoutFetch]; rw [if_neg (by decide)])
  have hC := processStockWithScore_flat timeoutFetch "CCC.NS"
    (by rw [timeoutFetch]; rw [if_neg (by decide)])
  have hB : processStockWithScore timeoutFetch "BBB.NS" =
      .failure "BBB.NS" "Operation timed out after 30000ms" := by
    rw [processStockWithScore]
    rw [show timeoutFetch "BBB.NS" =
      .error "Operation timed out after 30000ms" from rfl]
  obtain ⟨report, hscan, h1, h2, h3, h4, h5⟩ :=
    scanStocks_partial_failure ["AAA.NS", "BBB.NS", "CCC.NS"] {} timeoutFetch
      (by simp)
      (by norm_num [validateScanOptions, validIntervals])
  have hmap : (["AAA.NS", "BBB.NS", "CCC.NS"].map
      (processStockWithScore timeoutFetch)) =
      [.success ⟨"AAA.NS", 21/2, "DO_NOT_TRADE", SetupType.none, 1⟩,
       .failure "BBB.NS" "Operation timed out after 30000ms",
       .success ⟨"CCC.NS", 21/2, "DO_NOT_TRADE", SetupType.none, 1⟩] := by
    simp [hA, hB, hC]
  refine ⟨report, hscan, h1, ?_, ?_, ?_⟩
  · rw [h2, hmap]
    rfl
  · rw [h3, hmap]
    rfl
  · rw [h4, hmap]
    rfl

/-- C8 witness: a concrete one-symbol scan whose single qualifying result
is returned, sorted, above the bar. -/
theorem scan_ranking_witness :
    ∃ report, scanStocks ["RELIANCE.NS"] lowBarOptions okFetch = .ok report ∧
      report.stockList =
        [⟨"RELIANCE.NS", 21/2, "DO_NOT_TRADE", SetupType.none, 1⟩] ∧
      List.Pairwise (fun a b => b.score ≤ a.score) report.stockList ∧
      (∀ s ∈ report.stockList, (5 : ℚ) ≤ s.score) := by
  have hP := processStockWithScore_flat okFetch "RELIANCE.NS" rfl
  have hq : qualifiedOf
      [(⟨"RELIANCE.NS", 21/2, "DO_NOT_TRADE", SetupType.none, 1⟩ : StockResult)]
      lowBarOptions.minScore =
      [⟨"RELIANCE.NS", 21/2, "DO_NOT_TRADE", SetupType.none, 1⟩] := by
    rw [qualifiedOf, sortedByScore, List.mergeSort_singleton]
    norm_num [lowBarOptions]
  have hscan : scanStocks ["RELIANCE.NS"] lowBarOptions okFetch =
      .ok ⟨1, 1, 0, 1,
        [⟨"RELIANCE.NS", 21/2, "DO_NOT_TRADE", SetupType.none, 1⟩], []⟩ := by
    rw [scanStocks]
    rw [if_neg (by simp)]
    rw [show validateScanOptions lowBarOptions = .ok () from by
      norm_num [validateScanOptions, validIntervals, lowBarOptions]]
    simp only [List.map_cons, List.map_nil, hP, List.filterMap_cons,
      List.filterMap_nil, successOf, failureOf, hq]
    rfl
  obtain ⟨h1, h2, h3, h4, h5⟩ := scanStocks_ranking _ _ _ _ hscan
  refine ⟨_, hscan, rfl, h2, ?_⟩
  intro s hs
  have := h3 s hs
  simpa [lowBarOptions] using this


/-- C9: an input series of length 50 in which every field is present and
numeric but one bar's volume is 0 is rejected with the missing-properties
error: field presence is tested by truthiness, so a numeric zero is treated
as a missing field. -/
theorem scoreStock_zero_volume_raises :
    scoreStock zeroVolumeData =
      .error "Each data point must have high, low, close, and volume properties" := by
  have hlen : zeroVolumeData.length = 50 := by
    simp [zeroVolumeData, flatBar]
  have hany : zeroVolumeData.any
      (fun c => c.high = 0 ∨ c.low = 0 ∨ c.close = 0 ∨ c.volume = 0) = true := by
    simp only [zeroVolumeData, List.any_append, List.any_cons]
    rw [any_replicate_false _ _ _ (by simp [flatBar])]
    simp
  simp only [scoreStock, hlen]
  rw [if_neg (by omega), if_pos hany]

/-- C10 witness: the cap theorem applied to a concrete 200-bar series. -/
theorem scoreStock_caps_witness :
    ∃ r, scoreStock (flatData 200) = .ok r ∧ r.totalScore ≤ 85 :=
  ⟨_, scoreStock_flat 200 (le_refl 200),
    (scoreStock_component_caps (flatData 200) _
      (scoreStock_flat 200 (le_refl 200))).2.2.2.2.2.2.2⟩

end Screener
